import Mathlib

/-!
# usv_sailing_plugin: lift/drag forces on rudder, keel and sail

Shallow embedding of `src/usv_sailing_plugin/src/usv_sailing_plugin.cpp`.

C++ `double` is embedded as an arbitrary linearly ordered field `K` (exact arithmetic, no
rounding, `x / 0 = 0`); the definitions are computable and run on `ℚ`.  The `<cmath>` functions,
`M_PI` and `gazebo::math::Vector3::Normalize` are not part of the repository: they are the fields
of the record `Numerics`, and a theorem that needs a property of one of them says so in a
hypothesis.  The `gazebo::physics::Link` and `Joint` objects are records that hold what the plugin
reads, and logs of what it writes.
-/

namespace UsvSailing

/-! ## gazebo::math::Vector3 -/

/-- The three components of a `gazebo::math::Vector3`. -/
@[ext]
structure Vector3 (K : Type) where
  x : K
  y : K
  z : K

namespace Vector3

variable {K : Type} [LinearOrderedField K]

/-- Vector sum, `operator+`. -/
def add (a b : Vector3 K) : Vector3 K := ⟨a.x + b.x, a.y + b.y, a.z + b.z⟩

/-- Vector difference, `operator-`. -/
def sub (a b : Vector3 K) : Vector3 K := ⟨a.x - b.x, a.y - b.y, a.z - b.z⟩

/-- Unary minus, `operator-`. -/
def neg (a : Vector3 K) : Vector3 K := ⟨-a.x, -a.y, -a.z⟩

/-- Scalar times vector, `operator*(double, Vector3)`. -/
def scale (c : K) (a : Vector3 K) : Vector3 K := ⟨c * a.x, c * a.y, c * a.z⟩

/-- The cross product `a.Cross (b)`. -/
def Cross (a b : Vector3 K) : Vector3 K :=
  ⟨a.y * b.z - a.z * b.y, a.z * b.x - a.x * b.z, a.x * b.y - a.y * b.x⟩

/-- The dot product `a.Dot (b)`. -/
def Dot (a b : Vector3 K) : K := a.x * b.x + a.y * b.y + a.z * b.z

/-- The zero vector `math::Vector3 (0, 0, 0)`. -/
def zero : Vector3 K := ⟨0, 0, 0⟩

end Vector3

/-! ## Numerics that live outside the repository -/

/-- The `<cmath>` functions, the constant `M_PI` and gazebo's `Vector3::Normalize`, none of which
is defined in the repository. -/
structure Numerics (K : Type) where
  sqrt : K → K
  sin : K → K
  cos : K → K
  asin : K → K
  acos : K → K
  M_PI : K
  Normalize : Vector3 K → Vector3 K

section Model

variable {K : Type} [LinearOrderedField K]

/-- The length `v.GetLength ()`, the square root of the sum of the squared components. -/
def Vector3.GetLength (m : Numerics K) (v : Vector3 K) : K :=
  m.sqrt (v.x * v.x + v.y * v.y + v.z * v.z)

/-- The helper `math::clamp (v, min, max)`. -/
def clamp (v lo hi : K) : K := max (min v hi) lo

/-! ## The physics objects the plugin talks to -/

/-- What the plugin reads from its `physics::Link`, and the log of what it asks the link to do. -/
structure Link (K : Type) where
  /-- Result of `GetWorldLinearVel (offset)`: world velocity of the point at a body-frame offset -/
  GetWorldLinearVel : Vector3 K → Vector3 K
  /-- Result of `GetWorldPose ().rot.RotateVector (v)` -/
  RotateVector : Vector3 K → Vector3 K
  /-- Result of `GetInertial ()->GetCoG ()` -/
  GetCoG : Vector3 K
  /-- Result of `GetWorldCoGPose ().pos` -/
  GetWorldCoGPos : Vector3 K
  /-- Log of every `AddForceAtRelativePosition (force, relpos)` call so far, oldest first -/
  forces : List (Vector3 K × Vector3 K)
  /-- Log of every `AddTorque (torque)` call so far, oldest first -/
  torques : List (Vector3 K)

/-- The call `link->AddForceAtRelativePosition (force, relpos)`. -/
def Link.AddForceAtRelativePosition (l : Link K) (force relpos : Vector3 K) : Link K :=
  { l with forces := l.forces ++ [(force, relpos)] }

/-- The stop limits of axis 0 of the sail's `physics::Joint`. -/
structure Joint (K : Type) where
  lowStop : K
  highStop : K

/-- The call `joint->SetLowStop (0, math::Angle (a))`. -/
def Joint.SetLowStop (j : Joint K) (a : K) : Joint K := { j with lowStop := a }

/-- The call `joint->SetHighStop (0, math::Angle (a))`. -/
def Joint.SetHighStop (j : Joint K) (a : K) : Joint K := { j with highStop := a }

/-- The member variables of `USV_Sailing_Plugin` that the update callbacks use, together with the
link and the joint they act on. -/
structure Plugin (K : Type) where
  cla : K
  cda : K
  cma : K
  rho : K
  cp : Vector3 K
  forward : Vector3 K
  upward : Vector3 K
  area : K
  alpha0 : K
  alphaStall : K
  claStall : K
  cdaStall : K
  cmaStall : K
  wind : Vector3 K
  waterCurrent : Vector3 K
  alpha : K
  sweep : K
  angle : K
  linkType : String
  link : Link K
  joint : Joint K

/-! ## The folding loops -/

/-- The loop `while (fabs (x) > bound) x = x > 0 ? x - step : x + step;`.
The first argument bounds the number of iterations; `none` means the bound was reached with the
loop condition still true. -/
def foldLoop (bound step : K) : Nat → K → Option K
  | 0, x => if |x| > bound then none else some x
  | n + 1, x =>
    if |x| > bound then foldLoop bound step n (if x > 0 then x - step else x + step) else some x

/-! ## Coefficients of the rudder (lines 267-324) -/

/-- Positive stall branch of the rudder lift coefficient (lines 271-273). -/
def rudderClStallPos (cla alphaStall claStall cosSweepAngle2 alpha : K) : K :=
  max 0 ((cla * alphaStall + claStall * (alpha - alphaStall)) * cosSweepAngle2)

/-- Negative stall branch of the rudder lift coefficient (lines 277-279). -/
def rudderClStallNeg (cla alphaStall claStall cosSweepAngle2 alpha : K) : K :=
  min 0 (((-cla) * alphaStall + claStall * (alpha + alphaStall)) * cosSweepAngle2)

/-- Branch of the rudder lift coefficient without stall (line 282). -/
def rudderClPreStall (cla cosSweepAngle2 alpha : K) : K :=
  cla * alpha * cosSweepAngle2

/-- The rudder lift coefficient `cl` (lines 268-282). -/
def rudderCl (cla alphaStall claStall cosSweepAngle2 alpha : K) : K :=
  if alpha > alphaStall then rudderClStallPos cla alphaStall claStall cosSweepAngle2 alpha
  else if alpha < -alphaStall then rudderClStallNeg cla alphaStall claStall cosSweepAngle2 alpha
  else rudderClPreStall cla cosSweepAngle2 alpha

/-- The rudder drag coefficient `cd` (lines 288-301), the final `fabs` included. -/
def rudderCd (cda alphaStall cdaStall cosSweepAngle2 alpha : K) : K :=
  let cd :=
    if alpha > alphaStall then
      (cda * alphaStall + cdaStall * (alpha - alphaStall)) * cosSweepAngle2
    else if alpha < -alphaStall then
      ((-cda) * alphaStall + cdaStall * (alpha + alphaStall)) * cosSweepAngle2
    else
      (cda * alpha) * cosSweepAngle2
  |cd|

/-- The stall-aware moment coefficient as first computed (lines 307-321 and 434-448), before it
is reset. -/
def stallCm (cma alphaStall cmaStall cosSweepAngle2 alpha : K) : K :=
  if alpha > alphaStall then
    max 0 ((cma * alphaStall + cmaStall * (alpha - alphaStall)) * cosSweepAngle2)
  else if alpha < -alphaStall then
    min 0 (((-cma) * alphaStall + cmaStall * (alpha + alphaStall)) * cosSweepAngle2)
  else
    cma * alpha * cosSweepAngle2

/-! ## The update callbacks -/

/-- The local variables of `OnUpdateRudder` and `OnUpdateKeel` at the end of the function body,
together with the final values of `this->sweep` and `this->alpha`. -/
structure FoilLocals (K : Type) where
  forwardI : Vector3 K
  upwardI : Vector3 K
  ldNormal : Vector3 K
  sinSweepAngle : K
  cosSweepAngle2 : K
  sweep : K
  velInLDPlane : Vector3 K
  dragDirection : Vector3 K
  liftDirection : Vector3 K
  momentDirection : Vector3 K
  cosAlpha : K
  alphaSign : K
  alpha : K
  speedInLDPlane : K
  q : K
  cl : K
  lift : Vector3 K
  cd : K
  drag : Vector3 K
  cm : K
  moment : Vector3 K
  momentArm : Vector3 K
  force : Vector3 K
  torque : Vector3 K

/-- Lines 200-336 of `OnUpdateRudder`: everything between the speed guard and the force
application, as a function of the relative velocity `vel`.  `none` when one of the two folding
loops does not finish within `fuel` iterations.  The locals are those of the program where
`foilQuotientsDefined` holds; where a divisor is zero the program's quotient, and every local
computed from it, is not a number, while the quotient here is 0. -/
def rudderLocals (m : Numerics K) (fuel : Nat) (p : Plugin K) (vel : Vector3 K) :
    Option (FoilLocals K) :=
  let forwardI := p.link.RotateVector p.forward
  let upwardI := p.link.RotateVector p.upward
  let ldNormal := m.Normalize (forwardI.Cross upwardI)
  let sinSweepAngle := ldNormal.Dot vel / vel.GetLength m
  let cosSweepAngle2 := 1 - sinSweepAngle * sinSweepAngle
  (foldLoop (0.5 * m.M_PI) m.M_PI fuel (m.asin sinSweepAngle)).bind fun sweep =>
  let velInLDPlane := ldNormal.Cross (vel.Cross ldNormal)
  let dragDirection := m.Normalize velInLDPlane.neg
  let liftDirection := m.Normalize (ldNormal.Cross velInLDPlane)
  let momentDirection := ldNormal
  let cosAlpha :=
    clamp (forwardI.Dot velInLDPlane / (forwardI.GetLength m * velInLDPlane.GetLength m)) (-1) 1
  let alphaSign :=
    (-(upwardI.Dot velInLDPlane)) / (upwardI.GetLength m + velInLDPlane.GetLength m)
  let alphaStart := if alphaSign > 0 then p.alpha0 + m.acos cosAlpha else p.alpha0 - m.acos cosAlpha
  (foldLoop (0.5 * m.M_PI) m.M_PI fuel alphaStart).bind fun alpha =>
  let speedInLDPlane := velInLDPlane.GetLength m
  let q := 0.5 * p.rho * speedInLDPlane * speedInLDPlane
  let cl := rudderCl p.cla p.alphaStall p.claStall cosSweepAngle2 alpha
  let lift := liftDirection.scale (cl * q * p.area)
  let cd := rudderCd p.cda p.alphaStall p.cdaStall cosSweepAngle2 alpha
  let drag := dragDirection.scale (cd * q * p.area)
  let _cmStall := stallCm p.cma p.alphaStall p.cmaStall cosSweepAngle2 alpha
  let cm : K := 0
  let moment := momentDirection.scale (cm * q * p.area)
  let momentArm := p.link.RotateVector (p.cp.sub p.link.GetCoG)
  let force := lift.add drag
  let torque := moment
  some
    { forwardI, upwardI, ldNormal, sinSweepAngle, cosSweepAngle2, sweep, velInLDPlane,
      dragDirection, liftDirection, momentDirection, cosAlpha, alphaSign, alpha, speedInLDPlane,
      q, cl, lift, cd, drag, cm, moment, momentArm, force, torque }

/-- The callback `USV_Sailing_Plugin::OnUpdateRudder`.  `none` when a folding loop does not
finish within `fuel` iterations. -/
def OnUpdateRudder (m : Numerics K) (fuel : Nat) (p : Plugin K) : Option (Plugin K) :=
  let vel := (p.link.GetWorldLinearVel p.cp).sub p.waterCurrent
  if vel.GetLength m ≤ 0.01 then some p
  else
    (rudderLocals m fuel p vel).map fun L =>
      { p with
        sweep := L.sweep
        alpha := L.alpha
        link := p.link.AddForceAtRelativePosition L.force p.cp }

/-- Lines 352-463 of `OnUpdateKeel`: everything between the speed guard and the force
application, as a function of the relative velocity `vel`.  `none` when one of the two folding
loops does not finish within `fuel` iterations.  The locals are those of the program where
`foilQuotientsDefined` holds; where a divisor is zero the program's quotient, and every local
computed from it, is not a number, while the quotient here is 0. -/
def keelLocals (m : Numerics K) (fuel : Nat) (p : Plugin K) (vel : Vector3 K) :
    Option (FoilLocals K) :=
  let forwardI := p.link.RotateVector p.forward
  let upwardI := p.link.RotateVector p.upward
  let ldNormal := m.Normalize (forwardI.Cross upwardI)
  let sinSweepAngle := ldNormal.Dot vel / vel.GetLength m
  let cosSweepAngle2 := 1 - sinSweepAngle * sinSweepAngle
  (foldLoop (0.5 * m.M_PI) m.M_PI fuel (m.asin sinSweepAngle)).bind fun sweep =>
  let velInLDPlane := ldNormal.Cross (vel.Cross ldNormal)
  let dragDirection := m.Normalize velInLDPlane.neg
  let liftDirection := m.Normalize (ldNormal.Cross velInLDPlane)
  let momentDirection := ldNormal
  let cosAlpha :=
    clamp (forwardI.Dot velInLDPlane / (forwardI.GetLength m * velInLDPlane.GetLength m)) (-1) 1
  let alphaSign :=
    (-(upwardI.Dot velInLDPlane)) / (upwardI.GetLength m + velInLDPlane.GetLength m)
  let alphaStart := if alphaSign > 0 then p.alpha0 + m.acos cosAlpha else p.alpha0 - m.acos cosAlpha
  (foldLoop m.M_PI (2 * m.M_PI) fuel alphaStart).bind fun alpha =>
  let speedInLDPlane := velInLDPlane.GetLength m
  let q := 0.5 * p.rho * speedInLDPlane * speedInLDPlane
  let cl := 8 * m.sin (2 * alpha)
  let lift := liftDirection.scale (cl * q * p.area)
  let cd := 2 * (1 - m.cos (2 * alpha))
  let drag := dragDirection.scale (cd * q * p.area)
  let _cmStall := stallCm p.cma p.alphaStall p.cmaStall cosSweepAngle2 alpha
  let cm : K := 0
  let moment := momentDirection.scale (cm * q * p.area)
  let momentArm := p.link.RotateVector (p.cp.sub p.link.GetCoG)
  let force := lift.add drag
  let torque := moment
  some
    { forwardI, upwardI, ldNormal, sinSweepAngle, cosSweepAngle2, sweep, velInLDPlane,
      dragDirection, liftDirection, momentDirection, cosAlpha, alphaSign, alpha, speedInLDPlane,
      q, cl, lift, cd, drag, cm, moment, momentArm, force, torque }

/-- The callback `USV_Sailing_Plugin::OnUpdateKeel`.  `none` when a folding loop does not finish
within `fuel` iterations. -/
def OnUpdateKeel (m : Numerics K) (fuel : Nat) (p : Plugin K) : Option (Plugin K) :=
  let vel := (p.link.GetWorldLinearVel p.cp).sub p.waterCurrent
  if vel.GetLength m ≤ 0.01 then some p
  else
    (keelLocals m fuel p vel).map fun L =>
      { p with
        sweep := L.sweep
        alpha := L.alpha
        link := p.link.AddForceAtRelativePosition L.force p.cp }

/-- The local variables of `OnUpdateSail` at the end of the function body, together with the
final value of `this->alpha`. -/
structure SailLocals (K : Type) where
  forwardI : Vector3 K
  upwardI : Vector3 K
  ldNormal : Vector3 K
  velInLDPlane : Vector3 K
  dragDirection : Vector3 K
  liftDirection : Vector3 K
  momentDirection : Vector3 K
  cosAlpha : K
  alphaSign : K
  alpha : K
  speedInLDPlane : K
  q : K
  cl : K
  lift : Vector3 K
  cd : K
  drag : Vector3 K
  cm : K
  moment : Vector3 K
  momentArm : Vector3 K
  force : Vector3 K
  torque : Vector3 K

/-- Lines 481-556 of `OnUpdateSail`: everything between the speed guard and the force
application, as a function of the apparent wind `aw`.  The locals are those of the program
where `sailQuotientsDefined` holds. -/
def sailLocals (m : Numerics K) (p : Plugin K) (aw : Vector3 K) : SailLocals K :=
  let forwardI := p.link.RotateVector p.forward
  let upwardI := p.link.RotateVector p.upward
  let ldNormal := m.Normalize (forwardI.Cross upwardI)
  let velInLDPlane := aw
  let dragDirection := m.Normalize velInLDPlane
  let liftDirection := m.Normalize (ldNormal.Cross velInLDPlane).neg
  let momentDirection := ldNormal
  let cosAlpha :=
    clamp (forwardI.Dot velInLDPlane / (forwardI.GetLength m * velInLDPlane.GetLength m)) (-1) 1
  let alphaSign :=
    (-(upwardI.Dot velInLDPlane)) / (upwardI.GetLength m + velInLDPlane.GetLength m)
  let alpha := if alphaSign > 0 then m.acos cosAlpha else -m.acos cosAlpha
  let speedInLDPlane := velInLDPlane.GetLength m
  let q := 0.5 * p.rho * speedInLDPlane * speedInLDPlane
  let cl := 1.5 * m.sin (2 * alpha)
  let lift := liftDirection.scale (cl * q * p.area)
  let cd := 0.5 * (1 - m.cos (2 * alpha))
  let drag := dragDirection.scale (cd * q * p.area)
  let cm : K := 0
  let moment := momentDirection.scale (cm * q * p.area)
  let momentArm := p.link.RotateVector (p.cp.sub p.link.GetCoG)
  let force := lift.add drag
  let torque := moment
  { forwardI, upwardI, ldNormal, velInLDPlane, dragDirection, liftDirection, momentDirection,
    cosAlpha, alphaSign, alpha, speedInLDPlane, q, cl, lift, cd, drag, cm, moment, momentArm,
    force, torque }

/-- The callback `USV_Sailing_Plugin::OnUpdateSail`. -/
def OnUpdateSail (m : Numerics K) (p : Plugin K) : Plugin K :=
  let p1 := { p with joint := (p.joint.SetLowStop (-p.angle)).SetHighStop p.angle }
  let aw := p1.wind.sub (p1.link.GetWorldLinearVel p1.cp)
  if aw.GetLength m ≤ 0.01 then p1
  else
    let L := sailLocals m p1 aw
    { p1 with
      alpha := L.alpha
      link := p1.link.AddForceAtRelativePosition L.force p1.cp }

/-- The callback `USV_Sailing_Plugin::OnUpdate`: dispatch on `linkType`. -/
def OnUpdate (m : Numerics K) (fuel : Nat) (p : Plugin K) : Option (Plugin K) :=
  if p.linkType = "rudder" then OnUpdateRudder m fuel p
  else if p.linkType = "keel" then OnUpdateKeel m fuel p
  else if p.linkType = "sail" then some (OnUpdateSail m p)
  else some p

/-- The angle of attack of `OnUpdateRudder` (lines 204-257) and of `OnUpdateKeel` (lines 356-408,
the same statements) as it stands right before the loop that folds it.  It is the program's
angle where `foilQuotientsDefined` holds; where the divisor of `cosAlpha` is zero the program's
angle is not a number. -/
def foilAlphaStart (m : Numerics K) (p : Plugin K) (vel : Vector3 K) : K :=
  let forwardI := p.link.RotateVector p.forward
  let upwardI := p.link.RotateVector p.upward
  let ldNormal := m.Normalize (forwardI.Cross upwardI)
  let velInLDPlane := ldNormal.Cross (vel.Cross ldNormal)
  let cosAlpha :=
    clamp (forwardI.Dot velInLDPlane / (forwardI.GetLength m * velInLDPlane.GetLength m)) (-1) 1
  let alphaSign :=
    (-(upwardI.Dot velInLDPlane)) / (upwardI.GetLength m + velInLDPlane.GetLength m)
  if alphaSign > 0 then p.alpha0 + m.acos cosAlpha else p.alpha0 - m.acos cosAlpha

/-! ## Where the embedding stands for the program

In C++ a quotient with divisor zero is NaN or infinite, and so is everything computed from it;
the embedding has `x / 0 = 0` instead.  The predicates below say that no quotient of a tick has
a zero divisor, so that the locals of the embedding are the values the program computes (in
exact arithmetic). -/

/-- The vector `ldNormal` of the three ticks (lines 209, 360 and 489). -/
def ldNormalOf (m : Numerics K) (p : Plugin K) : Vector3 K :=
  m.Normalize ((p.link.RotateVector p.forward).Cross (p.link.RotateVector p.upward))

/-- The vector `velInLDPlane` of the rudder and keel ticks (lines 231 and 382). -/
def velInLDPlaneOf (m : Numerics K) (p : Plugin K) (vel : Vector3 K) : Vector3 K :=
  (ldNormalOf m p).Cross (vel.Cross (ldNormalOf m p))

/-- None of the three quotients of the rudder and keel ticks (`sinSweepAngle`, lines 212 and
363; `cosAlpha`, lines 245 and 396; `alphaSign`, lines 251 and 402) has divisor zero. -/
def foilQuotientsDefined (m : Numerics K) (p : Plugin K) (vel : Vector3 K) : Prop :=
  vel.GetLength m ≠ 0 ∧
  (p.link.RotateVector p.forward).GetLength m * (velInLDPlaneOf m p vel).GetLength m ≠ 0 ∧
  (p.link.RotateVector p.upward).GetLength m + (velInLDPlaneOf m p vel).GetLength m ≠ 0

/-- Whether no quotient of the rudder and keel ticks has divisor zero can be computed. -/
instance foilQuotientsDefined.decidable (m : Numerics K) (p : Plugin K) (vel : Vector3 K) :
    Decidable (foilQuotientsDefined m p vel) := by
  unfold foilQuotientsDefined
  infer_instance

/-- Neither quotient of the sail tick (`cosAlpha`, line 506; `alphaSign`, line 512) has divisor
zero. -/
def sailQuotientsDefined (m : Numerics K) (p : Plugin K) (aw : Vector3 K) : Prop :=
  (p.link.RotateVector p.forward).GetLength m * aw.GetLength m ≠ 0 ∧
  (p.link.RotateVector p.upward).GetLength m + aw.GetLength m ≠ 0

/-- Whether no quotient of the sail tick has divisor zero can be computed. -/
instance sailQuotientsDefined.decidable (m : Numerics K) (p : Plugin K) (aw : Vector3 K) :
    Decidable (sailQuotientsDefined m p aw) := by
  unfold sailQuotientsDefined
  infer_instance

/-- The function `gazebo::math::Vector3::Normalize` as gazebo 7 defines it (library code, outside
the repository): the vector is divided by its length `d` unless `math::equal (d, 0.0)` holds,
that is unless `d` is within `1e-6` of zero; then the vector is returned as it is. -/
def gazeboNormalize (sqrt : K → K) (v : Vector3 K) : Vector3 K :=
  let d := sqrt (v.x * v.x + v.y * v.y + v.z * v.z)
  if ¬ |d - 0.0| ≤ 1e-6 then ⟨v.x / d, v.y / d, v.z / d⟩ else v

/-- Both vectors that the rudder and keel ticks hand to `Normalize` for the drag and lift
directions (lines 234-239 and 385-390) are longer than the `1e-6` below which gazebo's
`Normalize` leaves a vector as it is. -/
def foilDirectionsNormalized (m : Numerics K) (p : Plugin K) (vel : Vector3 K) : Prop :=
  1e-6 < (velInLDPlaneOf m p vel).neg.GetLength m ∧
  1e-6 < ((ldNormalOf m p).Cross (velInLDPlaneOf m p vel)).GetLength m

/-- Whether both direction vectors of the rudder and keel ticks get normalised can be
computed. -/
instance foilDirectionsNormalized.decidable (m : Numerics K) (p : Plugin K) (vel : Vector3 K) :
    Decidable (foilDirectionsNormalized m p vel) := by
  unfold foilDirectionsNormalized
  infer_instance

/-- Both vectors that the sail tick hands to `Normalize` for the drag and lift directions
(lines 495-501) are longer than the `1e-6` below which gazebo's `Normalize` leaves a vector as
it is. -/
def sailDirectionsNormalized (m : Numerics K) (p : Plugin K) (aw : Vector3 K) : Prop :=
  1e-6 < aw.GetLength m ∧ 1e-6 < ((ldNormalOf m p).Cross aw).neg.GetLength m

/-- Whether both direction vectors of the sail tick get normalised can be computed. -/
instance sailDirectionsNormalized.decidable (m : Numerics K) (p : Plugin K) (aw : Vector3 K) :
    Decidable (sailDirectionsNormalized m p aw) := by
  unfold sailDirectionsNormalized
  infer_instance

/-! ## The fluid-velocity estimates -/

/-- The callback `USV_Sailing_Plugin::ReadWaterCurrent` (lines 562-568). -/
def ReadWaterCurrent (p : Plugin K) (msg : Vector3 K) : Plugin K :=
  { p with waterCurrent := ⟨msg.x, msg.y, msg.z⟩ }

/-- The two fields of a `GetSpeed` service response that the plugin reads. -/
structure GetSpeedResponse (K : Type) where
  x : K
  y : K

/-- One pass through the body of the loop of `WaterThreadLoop` (lines 576-593); `result` is
`none` when `velocity_serviceClient_.call (srv)` returns false and the response otherwise.  The
two `sleep` calls have no effect on the state. -/
def WaterThreadLoopBody (p : Plugin K) (result : Option (GetSpeedResponse K)) : Plugin K :=
  match result with
  | some response =>
    { p with waterCurrent := { p.waterCurrent with x := response.x, y := response.y } }
  | none => p

/-- The loop of `WaterThreadLoop` (lines 574-594) run for as many passes as `results` has
entries, the outcome of the service call of each pass in turn. -/
def WaterThreadLoop (results : List (Option (GetSpeedResponse K))) (p : Plugin K) : Plugin K :=
  results.foldl WaterThreadLoopBody p

/-- One pass through the body of the loop of `WindThreadLoop` (lines 603-620); `result` is
`none` when `velocity_serviceClient_.call (srv)` returns false and the response otherwise. -/
def WindThreadLoopBody (p : Plugin K) (result : Option (GetSpeedResponse K)) : Plugin K :=
  match result with
  | some response => { p with wind := { p.wind with x := response.x, y := response.y } }
  | none => p

/-- The loop of `WindThreadLoop` (lines 601-621) run for as many passes as `results` has
entries, the outcome of the service call of each pass in turn. -/
def WindThreadLoop (results : List (Option (GetSpeedResponse K))) (p : Plugin K) : Plugin K :=
  results.foldl WindThreadLoopBody p

/-! ## Construction and loading -/

/-- The elements of the plugin's SDF description that `Load` looks at; `none` stands for an
element that is absent (`HasElement` false). -/
structure Sdf (K : Type) where
  a0 : Option K
  cla : Option K
  cda : Option K
  cma : Option K
  alpha_stall : Option K
  cla_stall : Option K
  cda_stall : Option K
  cma_stall : Option K
  cp : Option (Vector3 K)
  forward : Option (Vector3 K)
  upward : Option (Vector3 K)
  area : Option K
  air_density : Option K
  link_name : Option String
  link_type : Option String
  joint_name : Option String
  fluidVelocity : Option String

/-- What `Load` asks of the `physics::Model` it is given. -/
structure Model (K : Type) where
  GetLink : String → Link K
  GetJoint : String → Joint K

/-- The two entries of the ROS parameter server that `Load` reads, `none` when `getParam`
returns false. -/
structure ParamServer (K : Type) where
  windX : Option K
  windY : Option K

/-- The constructor `USV_Sailing_Plugin::USV_Sailing_Plugin` (lines 18-35).  The argument holds
the members the constructor does not initialise (`alpha`, `sweep`, `angle`, `link`, `joint`);
strings and vectors without an initialiser start empty and zero. -/
def USV_Sailing_Plugin (m : Numerics K) (raw : Plugin K) : Plugin K :=
  { raw with
    cla := 1.0
    cda := 0.01
    cma := 0.01
    rho := 1.2041
    cp := ⟨0, 0, 0⟩
    forward := ⟨1, 0, 0⟩
    upward := ⟨0, 0, 1⟩
    area := 1.0
    alpha0 := 0.0
    alphaStall := 0.5 * m.M_PI
    claStall := 0.0
    cdaStall := 1.0
    cmaStall := 0.0
    wind := ⟨0.0, 0.0, 0.0⟩
    waterCurrent := ⟨0, 0, 0⟩
    linkType := "" }

/-- The method `USV_Sailing_Plugin::Load` (lines 58-141), for the members that `Plugin` holds:
each element that is present overrides its member, then `waterCurrent` is reset and, in global
mode, the wind is read from the parameter server.  The names, the `running` flag and the start of
the refresh thread (lines 142-160) are not part of `Plugin`. -/
def Load (model : Model K) (sdf : Sdf K) (params : ParamServer K) (p : Plugin K) : Plugin K :=
  { p with
    alpha0 := sdf.a0.getD p.alpha0
    cla := sdf.cla.getD p.cla
    cda := sdf.cda.getD p.cda
    cma := sdf.cma.getD p.cma
    alphaStall := sdf.alpha_stall.getD p.alphaStall
    claStall := sdf.cla_stall.getD p.claStall
    cdaStall := sdf.cda_stall.getD p.cdaStall
    cmaStall := sdf.cma_stall.getD p.cmaStall
    cp := sdf.cp.getD p.cp
    forward := sdf.forward.getD p.forward
    upward := sdf.upward.getD p.upward
    area := sdf.area.getD p.area
    rho := sdf.air_density.getD p.rho
    link := match sdf.link_name with
      | some name => model.GetLink name
      | none => p.link
    linkType := sdf.link_type.getD p.linkType
    joint := match sdf.joint_name with
      | some name => model.GetJoint name
      | none => p.joint
    waterCurrent := ⟨0, 0, 0⟩
    wind :=
      if sdf.fluidVelocity.getD "" = "global" then
        match params.windX, params.windY with
        | some wind_value_x, some wind_value_y => ⟨wind_value_x, wind_value_y, 0⟩
        | _, _ => p.wind
      else p.wind }

/-- An SDF description without any of the elements. -/
def Sdf.empty : Sdf K :=
  { a0 := none, cla := none, cda := none, cma := none, alpha_stall := none, cla_stall := none,
    cda_stall := none, cma_stall := none, cp := none, forward := none, upward := none,
    area := none, air_density := none, link_name := none, link_type := none,
    joint_name := none, fluidVelocity := none }

end Model

/-! ## Runnable instances -/

section Demo

variable {K : Type} [LinearOrderedField K]

/-- The numerics made of the five given functions and the given constant, with a `Normalize`
that divides every component by the length computed with the given square root. -/
def Numerics.ofLibm (sqrt sin cos asin acos : K → K) (M_PI : K) : Numerics K where
  sqrt := sqrt
  sin := sin
  cos := cos
  asin := asin
  acos := acos
  M_PI := M_PI
  Normalize := fun v => v.scale (1 / sqrt (v.x * v.x + v.y * v.y + v.z * v.z))

/-- The numerics made of the five given functions and the given constant, with gazebo's
`Normalize` computed with the given square root. -/
def Numerics.ofLibmGazebo (sqrt sin cos asin acos : K → K) (M_PI : K) : Numerics K where
  sqrt := sqrt
  sin := sin
  cos := cos
  asin := asin
  acos := acos
  M_PI := M_PI
  Normalize := gazeboNormalize sqrt

/-- A link at the identity pose whose every point moves with velocity `vel`, with empty logs. -/
def demoLink (vel : Vector3 K) : Link K where
  GetWorldLinearVel := fun _ => vel
  RotateVector := fun v => v
  GetCoG := ⟨0, 0, 0⟩
  GetWorldCoGPos := ⟨0, 0, 0⟩
  forces := []
  torques := []

/-- The plugin as the constructor (lines 18-35) leaves it, attached to `demoLink vel`, in still
water and still air. -/
def demoPlugin (vel : Vector3 K) : Plugin K where
  cla := 1.0
  cda := 0.01
  cma := 0.01
  rho := 1.2041
  cp := ⟨0, 0, 0⟩
  forward := ⟨1, 0, 0⟩
  upward := ⟨0, 0, 1⟩
  area := 1.0
  alpha0 := 0.0
  alphaStall := 0.5 * 3.14159265358979323846
  claStall := 0.0
  cdaStall := 1.0
  cmaStall := 0.0
  wind := ⟨0, 0, 0⟩
  waterCurrent := ⟨0, 0, 0⟩
  alpha := 0
  sweep := 0
  angle := 0
  linkType := "rudder"
  link := demoLink vel
  joint := ⟨0, 0⟩

/-- The demo plugin moving straight ahead at unit speed, with the given zero-lift angle, stall
angle and lift slope. -/
def demoRudder (alpha0 alphaStall cla : K) : Plugin K :=
  { demoPlugin ⟨1, 0, 0⟩ with
    alpha0 := alpha0
    alphaStall := alphaStall
    cla := cla }

/-- The demo plugin as a sail at rest in still air, with the given target angle and joint stops
at zero. -/
def demoSail (angle : K) : Plugin K :=
  { demoPlugin ⟨0, 0, 0⟩ with
    angle := angle
    linkType := "sail" }

end Demo

/-- A computable `Numerics ℚ` for running the embedding on concrete inputs: `sqrt` is exact on
squares of rationals, `asin` and `acos` interpolate linearly between their exact values at -1, 0
and 1, and `sin` and `cos` are their Taylor polynomials of degree 3 and 2.  No theorem relies on
how close these are to the real functions. -/
def ratNumerics : Numerics ℚ :=
  Numerics.ofLibm Rat.sqrt (fun x => x - x ^ 3 / 6) (fun x => 1 - x ^ 2 / 2)
    (fun x => x * (3.14159265358979323846 / 2)) (fun x => (1 - x) * (3.14159265358979323846 / 2))
    3.14159265358979323846

/-- The rational numerics of `ratNumerics` with gazebo's `Normalize` in place of the plain
division by the length. -/
def gazeboRatNumerics : Numerics ℚ :=
  Numerics.ofLibmGazebo Rat.sqrt (fun x => x - x ^ 3 / 6) (fun x => 1 - x ^ 2 / 2)
    (fun x => x * (3.14159265358979323846 / 2)) (fun x => (1 - x) * (3.14159265358979323846 / 2))
    3.14159265358979323846

/-! ## Unfolding the update callbacks -/

section Lemmas

variable {K : Type} [LinearOrderedField K]

/-- A successful run of the keel body went through both folding loops and filled the locals as
the source does. -/
theorem keelLocals_eq_some {m : Numerics K} {fuel : Nat} {p : Plugin K} {vel : Vector3 K}
    {L : FoilLocals K} (h : keelLocals m fuel p vel = some L) :
    foldLoop (0.5 * m.M_PI) m.M_PI fuel (m.asin L.sinSweepAngle) = some L.sweep ∧
    (∃ start, foldLoop m.M_PI (2 * m.M_PI) fuel start = some L.alpha) ∧
    L.cl = 8 * m.sin (2 * L.alpha) ∧
    L.cd = 2 * (1 - m.cos (2 * L.alpha)) ∧
    L.lift = L.liftDirection.scale (L.cl * L.q * p.area) ∧
    L.drag = L.dragDirection.scale (L.cd * L.q * p.area) ∧
    L.cm = 0 ∧
    L.moment = L.momentDirection.scale (L.cm * L.q * p.area) ∧
    L.force = L.lift.add L.drag ∧
    L.torque = L.moment := by
  simp only [keelLocals, Option.bind_eq_some] at h
  obtain ⟨sweep, hs, alpha, ha, hL⟩ := h
  cases hL
  exact ⟨hs, ⟨_, ha⟩, rfl, rfl, rfl, rfl, rfl, rfl, rfl, rfl⟩

/-- A value already within the bound leaves the loop at once, whatever the fuel. -/
theorem foldLoop_of_le {bound step : K} {x : K} (h : |x| ≤ bound) (fuel : Nat) :
    foldLoop bound step fuel x = some x := by
  cases fuel <;> simp [foldLoop, not_lt.mpr h]

/-- A start value within `bound + n * step` leaves the loop after at most `n` iterations, within
the bound and shifted by a whole number of steps. -/
theorem foldLoop_bounded {bound step : K} (hb : 0 < bound) (hstep : step = 2 * bound) :
    ∀ (n : Nat) (x : K), |x| ≤ bound + n * step → ∀ fuel, n ≤ fuel →
      ∃ y, foldLoop bound step fuel x = some y ∧ |y| ≤ bound ∧ ∃ j : ℤ, y = x + j * step := by
  intro n
  induction n with
  | zero =>
    intro x hx fuel _
    have hx0 : |x| ≤ bound := by simpa using hx
    exact ⟨x, foldLoop_of_le hx0 fuel, hx0, 0, by simp⟩
  | succ n ih =>
    intro x hx fuel hfuel
    by_cases hx0 : |x| ≤ bound
    · exact ⟨x, foldLoop_of_le hx0 fuel, hx0, 0, by simp⟩
    · have hgt : |x| > bound := not_le.mp hx0
      obtain ⟨f, rfl⟩ : ∃ f, fuel = f + 1 := ⟨fuel - 1, by omega⟩
      have hf : n ≤ f := by omega
      have hx1 : |x| ≤ bound + n * step + step := by
        have : ((n + 1 : ℕ) : K) = n + 1 := by push_cast; rfl
        rw [this] at hx
        linarith
      have hn : 0 ≤ (n : K) * step := by
        rw [hstep]
        positivity
      by_cases hpos : x > 0
      · have habs : |x| = x := abs_of_pos hpos
        rw [habs] at hgt hx1
        have hnext : |x - step| ≤ bound + n * step := by
          rw [abs_le]
          constructor <;> linarith
        obtain ⟨y, hy, hyb, j, hj⟩ := ih (x - step) hnext f hf
        refine ⟨y, ?_, hyb, j - 1, ?_⟩
        · simp only [foldLoop, habs, hgt, if_true, hpos]
          exact hy
        · rw [hj]
          push_cast
          ring
      · have hle : x ≤ 0 := not_lt.mp hpos
        have habs : |x| = -x := abs_of_nonpos hle
        have hgt2 := hgt
        rw [habs] at hgt2 hx1
        have hnext : |x + step| ≤ bound + n * step := by
          rw [abs_le]
          constructor <;> linarith
        obtain ⟨y, hy, hyb, j, hj⟩ := ih (x + step) hnext f hf
        refine ⟨y, ?_, hyb, j + 1, ?_⟩
        · simp only [foldLoop, hgt, if_true, hpos, if_false]
          exact hy
        · rw [hj]
          push_cast
          ring

/-- In an Archimedean field the folding loop finishes from every start value. -/
theorem foldLoop_terminates [Archimedean K] {bound step : K} (hb : 0 < bound)
    (hstep : step = 2 * bound) (x : K) :
    ∃ N : Nat, ∀ fuel, N ≤ fuel →
      ∃ y, foldLoop bound step fuel x = some y ∧ |y| ≤ bound ∧ ∃ j : ℤ, y = x + j * step := by
  have hs : 0 < step := by rw [hstep]; positivity
  obtain ⟨n, hn⟩ := exists_nat_ge (|x| / step)
  refine ⟨n, foldLoop_bounded hb hstep n x ?_⟩
  have : |x| ≤ n * step := (div_le_iff₀ hs).mp hn
  linarith

/-- The rudder body is its two folding loops followed by loop-free code. -/
theorem rudderLocals_shape (m : Numerics K) (p : Plugin K) (vel : Vector3 K) :
    ∃ (s0 a0 : K) (F : K → K → FoilLocals K),
      (∀ fuel, rudderLocals m fuel p vel =
        (foldLoop (0.5 * m.M_PI) m.M_PI fuel s0).bind fun s =>
          (foldLoop (0.5 * m.M_PI) m.M_PI fuel a0).bind fun a => some (F s a)) ∧
      ∀ s a, (F s a).sweep = s ∧ (F s a).alpha = a :=
  ⟨_, _, _, fun _ => rfl, fun _ _ => ⟨rfl, rfl⟩⟩


/-- The keel body is its two folding loops followed by loop-free code. -/
theorem keelLocals_shape (m : Numerics K) (p : Plugin K) (vel : Vector3 K) :
    ∃ (s0 a0 : K) (F : K → K → FoilLocals K),
      (∀ fuel, keelLocals m fuel p vel =
        (foldLoop (0.5 * m.M_PI) m.M_PI fuel s0).bind fun s =>
          (foldLoop m.M_PI (2 * m.M_PI) fuel a0).bind fun a => some (F s a)) ∧
      ∀ s a, (F s a).sweep = s ∧ (F s a).alpha = a :=
  ⟨_, _, _, fun _ => rfl, fun _ _ => ⟨rfl, rfl⟩⟩

/-- Half of a positive `M_PI` is positive. -/
theorem half_pi_pos {m : Numerics K} (hpi : 0 < m.M_PI) : 0 < 0.5 * m.M_PI := by
  norm_num
  exact hpi

/-- The step `M_PI` is twice the bound `0.5 * M_PI`. -/
theorem pi_eq_two_half (m : Numerics K) : m.M_PI = 2 * (0.5 * m.M_PI) := by
  norm_num
  ring

/-- With enough fuel the rudder body returns, with `sweep` and `alpha` folded. -/
theorem rudderLocals_terminates [Archimedean K] (m : Numerics K) (hpi : 0 < m.M_PI)
    (p : Plugin K) (vel : Vector3 K) :
    ∃ N : Nat, ∀ fuel, N ≤ fuel → ∃ L, rudderLocals m fuel p vel = some L ∧
      |L.sweep| ≤ 0.5 * m.M_PI ∧ |L.alpha| ≤ 0.5 * m.M_PI := by
  obtain ⟨s0, a0, F, hF, hFs⟩ := rudderLocals_shape m p vel
  obtain ⟨N1, h1⟩ := foldLoop_terminates (half_pi_pos hpi) (pi_eq_two_half m) s0
  obtain ⟨N2, h2⟩ := foldLoop_terminates (half_pi_pos hpi) (pi_eq_two_half m) a0
  refine ⟨max N1 N2, fun fuel hfuel => ?_⟩
  obtain ⟨s, hs, hsb, -⟩ := h1 fuel (le_trans (le_max_left _ _) hfuel)
  obtain ⟨a, ha, hab, -⟩ := h2 fuel (le_trans (le_max_right _ _) hfuel)
  refine ⟨F s a, ?_, ?_, ?_⟩
  · rw [hF, hs, Option.some_bind, ha, Option.some_bind]
  · rw [(hFs s a).1]
    exact hsb
  · rw [(hFs s a).2]
    exact hab

/-- With enough fuel the keel body returns, with `sweep` and `alpha` folded. -/
theorem keelLocals_terminates [Archimedean K] (m : Numerics K) (hpi : 0 < m.M_PI)
    (p : Plugin K) (vel : Vector3 K) :
    ∃ N : Nat, ∀ fuel, N ≤ fuel → ∃ L, keelLocals m fuel p vel = some L ∧
      |L.sweep| ≤ 0.5 * m.M_PI ∧ |L.alpha| ≤ m.M_PI := by
  obtain ⟨s0, a0, F, hF, hFs⟩ := keelLocals_shape m p vel
  obtain ⟨N1, h1⟩ := foldLoop_terminates (half_pi_pos hpi) (pi_eq_two_half m) s0
  obtain ⟨N2, h2⟩ := foldLoop_terminates hpi rfl a0
  refine ⟨max N1 N2, fun fuel hfuel => ?_⟩
  obtain ⟨s, hs, hsb, -⟩ := h1 fuel (le_trans (le_max_left _ _) hfuel)
  obtain ⟨a, ha, hab, -⟩ := h2 fuel (le_trans (le_max_right _ _) hfuel)
  refine ⟨F s a, ?_, ?_, ?_⟩
  · rw [hF, hs, Option.some_bind, ha, Option.some_bind]
  · rw [(hFs s a).1]
    exact hsb
  · rw [(hFs s a).2]
    exact hab

/-- A successful run of the rudder body went through both folding loops and filled the locals
as the source does. -/
theorem rudderLocals_eq_some {m : Numerics K} {fuel : Nat} {p : Plugin K} {vel : Vector3 K}
    {L : FoilLocals K} (h : rudderLocals m fuel p vel = some L) :
    foldLoop (0.5 * m.M_PI) m.M_PI fuel (m.asin L.sinSweepAngle) = some L.sweep ∧
    (∃ start, foldLoop (0.5 * m.M_PI) m.M_PI fuel start = some L.alpha) ∧
    L.cosSweepAngle2 = 1 - L.sinSweepAngle * L.sinSweepAngle ∧
    L.cl = rudderCl p.cla p.alphaStall p.claStall L.cosSweepAngle2 L.alpha ∧
    L.cd = rudderCd p.cda p.alphaStall p.cdaStall L.cosSweepAngle2 L.alpha ∧
    L.lift = L.liftDirection.scale (L.cl * L.q * p.area) ∧
    L.drag = L.dragDirection.scale (L.cd * L.q * p.area) ∧
    L.cm = 0 ∧
    L.moment = L.momentDirection.scale (L.cm * L.q * p.area) ∧
    L.force = L.lift.add L.drag ∧
    L.torque = L.moment := by
  simp only [rudderLocals, Option.bind_eq_some] at h
  obtain ⟨sweep, hs, alpha, ha, hL⟩ := h
  cases hL
  exact ⟨hs, ⟨_, ha⟩, rfl, rfl, rfl, rfl, rfl, rfl, rfl, rfl, rfl⟩

/-- Scaling by `0 * q * area` gives the zero vector. -/
theorem scale_zero_mul (q area : K) (v : Vector3 K) :
    v.scale (0 * q * area) = Vector3.zero := by
  simp [Vector3.scale, Vector3.zero]

/-- Scaling the left factor scales the cross product. -/
theorem Vector3.scale_Cross (k : K) (a b : Vector3 K) :
    (a.scale k).Cross b = (a.Cross b).scale k := by
  ext <;> simp [Vector3.Cross, Vector3.scale] <;> ring

/-- Scaling the right factor scales the cross product. -/
theorem Vector3.Cross_scale (k : K) (a b : Vector3 K) :
    a.Cross (b.scale k) = (a.Cross b).scale k := by
  ext <;> simp [Vector3.Cross, Vector3.scale] <;> ring

/-- Scaling the right factor scales the dot product. -/
theorem Vector3.Dot_scale (k : K) (a b : Vector3 K) :
    a.Dot (b.scale k) = k * a.Dot b := by
  simp only [Vector3.Dot, Vector3.scale]
  ring

/-- Negation commutes with scaling. -/
theorem Vector3.neg_scale (k : K) (a : Vector3 K) :
    (a.scale k).neg = a.neg.scale k := by
  ext <;> simp [Vector3.neg, Vector3.scale]

/-- With a square root that is homogeneous of degree one half, the length is homogeneous of
degree one. -/
theorem Vector3.GetLength_scale {m : Numerics K}
    (hsqrt : ∀ k x : K, 0 < k → m.sqrt (k * k * x) = k * m.sqrt x) {k : K} (hk : 0 < k)
    (v : Vector3 K) : (v.scale k).GetLength m = k * v.GetLength m := by
  rw [Vector3.GetLength, Vector3.GetLength, ← hsqrt k _ hk]
  congr 1
  simp only [Vector3.scale]
  ring

/-- The sign test on `alphaSign` has the same outcome for a velocity and for a positive multiple
of it. -/
theorem alphaSign_scale {k d u l : K} (hk : 0 < k) (hu : 0 ≤ u) (hl : 0 ≤ l) :
    (-(k * d)) / (u + k * l) > 0 ↔ (-d) / (u + l) > 0 := by
  have h1 : 0 ≤ u + k * l := by positivity
  have h2 : 0 ≤ u + l := by positivity
  have hden : 0 < u + k * l ↔ 0 < u + l := by
    constructor
    · intro h
      rcases hu.lt_or_eq with hu1 | hu1
      · linarith
      · rcases hl.lt_or_eq with hl1 | hl1
        · linarith
        · rw [← hu1, ← hl1] at h
          simp at h
    · intro h
      rcases hu.lt_or_eq with hu1 | hu1
      · have : 0 ≤ k * l := by positivity
        linarith
      · rcases hl.lt_or_eq with hl1 | hl1
        · have : 0 < k * l := by positivity
          linarith
        · rw [← hu1, ← hl1] at h
          simp at h
  have hnum : 0 < -(k * d) ↔ 0 < -d := by
    constructor
    · intro h
      have hd : d < 0 := by
        by_contra hd
        have : 0 ≤ k * d := mul_nonneg hk.le (not_lt.mp hd)
        linarith
      linarith
    · intro h
      have hd : d < 0 := by linarith
      have : k * d < 0 := mul_neg_of_pos_of_neg hk hd
      linarith
  simp only [gt_iff_lt, div_pos_iff, hden, hnum, not_lt.mpr h1, not_lt.mpr h2, and_false,
    or_false]

/-- Two chains of `bind` on the same option agree after `map` when their continuations do. -/
theorem map_bind_congr {α β γ : Type} {x : Option α} {G1 G2 : α → Option β} {f1 f2 : β → γ}
    (h : ∀ a, (G1 a).map f1 = (G2 a).map f2) : (x.bind G1).map f1 = (x.bind G2).map f2 := by
  cases x
  · rfl
  · exact h _

/-- The rudder body at `k * vel`, when `Normalize` returns the same two directions as at `vel`:
same angles and coefficients, `q` and the force multiplied by `k * k`. -/
theorem rudderLocals_scale (m : Numerics K) (hsqrt0 : ∀ x : K, 0 ≤ m.sqrt x)
    (hsqrt : ∀ k x : K, 0 < k → m.sqrt (k * k * x) = k * m.sqrt x)
    (fuel : Nat) (p : Plugin K) (vel : Vector3 K) (k : K) (hk : 0 < k)
    (hd : m.Normalize ((velInLDPlaneOf m p vel).neg.scale k) =
      m.Normalize (velInLDPlaneOf m p vel).neg)
    (hl : m.Normalize (((ldNormalOf m p).Cross (velInLDPlaneOf m p vel)).scale k) =
      m.Normalize ((ldNormalOf m p).Cross (velInLDPlaneOf m p vel))) :
    (rudderLocals m fuel p (vel.scale k)).map
        (fun L => (L.q, L.alpha, L.sweep, L.liftDirection, L.dragDirection, L.cl, L.cd, L.force)) =
      (rudderLocals m fuel p vel).map
        (fun L => (k * k * L.q, L.alpha, L.sweep, L.liftDirection, L.dragDirection, L.cl, L.cd,
          L.force.scale (k * k))) := by
  have hlen := fun v => Vector3.GetLength_scale hsqrt hk v
  have hlen0 : ∀ v : Vector3 K, 0 ≤ v.GetLength m := fun v => hsqrt0 _
  have hden : ∀ a l : K, a * (k * l) = k * (a * l) := fun a l => by ring
  simp only [ldNormalOf, velInLDPlaneOf] at hd hl
  simp only [rudderLocals, Vector3.scale_Cross, Vector3.Cross_scale, Vector3.Dot_scale,
    Vector3.neg_scale, hlen, hd, hl]
  simp only [hden, mul_div_mul_left _ _ hk.ne', alphaSign_scale hk (hlen0 _) (hlen0 _)]
  refine map_bind_congr fun s => ?_
  refine map_bind_congr fun a => ?_
  simp only [Option.map_some', Option.some.injEq, Prod.mk.injEq, true_and, and_true]
  refine ⟨by ring, ?_⟩
  ext <;> simp only [Vector3.scale, Vector3.add] <;> ring

/-- The keel body at `k * vel`, when `Normalize` returns the same two directions as at `vel`:
same angles and coefficients, `q` and the force multiplied by `k * k`. -/
theorem keelLocals_scale (m : Numerics K) (hsqrt0 : ∀ x : K, 0 ≤ m.sqrt x)
    (hsqrt : ∀ k x : K, 0 < k → m.sqrt (k * k * x) = k * m.sqrt x)
    (fuel : Nat) (p : Plugin K) (vel : Vector3 K) (k : K) (hk : 0 < k)
    (hd : m.Normalize ((velInLDPlaneOf m p vel).neg.scale k) =
      m.Normalize (velInLDPlaneOf m p vel).neg)
    (hl : m.Normalize (((ldNormalOf m p).Cross (velInLDPlaneOf m p vel)).scale k) =
      m.Normalize ((ldNormalOf m p).Cross (velInLDPlaneOf m p vel))) :
    (keelLocals m fuel p (vel.scale k)).map
        (fun L => (L.q, L.alpha, L.sweep, L.liftDirection, L.dragDirection, L.cl, L.cd, L.force)) =
      (keelLocals m fuel p vel).map
        (fun L => (k * k * L.q, L.alpha, L.sweep, L.liftDirection, L.dragDirection, L.cl, L.cd,
          L.force.scale (k * k))) := by
  have hlen := fun v => Vector3.GetLength_scale hsqrt hk v
  have hlen0 : ∀ v : Vector3 K, 0 ≤ v.GetLength m := fun v => hsqrt0 _
  have hden : ∀ a l : K, a * (k * l) = k * (a * l) := fun a l => by ring
  simp only [ldNormalOf, velInLDPlaneOf] at hd hl
  simp only [keelLocals, Vector3.scale_Cross, Vector3.Cross_scale, Vector3.Dot_scale,
    Vector3.neg_scale, hlen, hd, hl]
  simp only [hden, mul_div_mul_left _ _ hk.ne', alphaSign_scale hk (hlen0 _) (hlen0 _)]
  refine map_bind_congr fun s => ?_
  refine map_bind_congr fun a => ?_
  simp only [Option.map_some', Option.some.injEq, Prod.mk.injEq, true_and, and_true]
  refine ⟨by ring, ?_⟩
  ext <;> simp only [Vector3.scale, Vector3.add] <;> ring

/-- The sail body at `k * aw`, when `Normalize` returns the same two directions as at `aw`:
same angle and coefficients, `q` and the force multiplied by `k * k`. -/
theorem sailLocals_scale (m : Numerics K) (hsqrt0 : ∀ x : K, 0 ≤ m.sqrt x)
    (hsqrt : ∀ k x : K, 0 < k → m.sqrt (k * k * x) = k * m.sqrt x)
    (p : Plugin K) (aw : Vector3 K) (k : K) (hk : 0 < k)
    (hd : m.Normalize (aw.scale k) = m.Normalize aw)
    (hl : m.Normalize (((ldNormalOf m p).Cross aw).neg.scale k) =
      m.Normalize ((ldNormalOf m p).Cross aw).neg) :
    (sailLocals m p (aw.scale k)).q = k * k * (sailLocals m p aw).q ∧
    (sailLocals m p (aw.scale k)).alpha = (sailLocals m p aw).alpha ∧
    (sailLocals m p (aw.scale k)).liftDirection = (sailLocals m p aw).liftDirection ∧
    (sailLocals m p (aw.scale k)).dragDirection = (sailLocals m p aw).dragDirection ∧
    (sailLocals m p (aw.scale k)).cl = (sailLocals m p aw).cl ∧
    (sailLocals m p (aw.scale k)).cd = (sailLocals m p aw).cd ∧
    (sailLocals m p (aw.scale k)).force = (sailLocals m p aw).force.scale (k * k) := by
  have hlen := fun v => Vector3.GetLength_scale hsqrt hk v
  have hlen0 : ∀ v : Vector3 K, 0 ≤ v.GetLength m := fun v => hsqrt0 _
  have hden : ∀ a l : K, a * (k * l) = k * (a * l) := fun a l => by ring
  simp only [ldNormalOf] at hl
  simp only [sailLocals, Vector3.scale_Cross, Vector3.Cross_scale, Vector3.Dot_scale,
    Vector3.neg_scale, hlen, hd, hl]
  simp only [hden, mul_div_mul_left _ _ hk.ne', alphaSign_scale hk (hlen0 _) (hlen0 _),
    true_and]
  refine ⟨by ring, ?_⟩
  ext <;> simp only [Vector3.scale, Vector3.add] <;> ring

/-- The `alpha` of a successful rudder body is the folding loop run on `foilAlphaStart`. -/
theorem rudderLocals_alpha_start {m : Numerics K} {fuel : Nat} {p : Plugin K} {vel : Vector3 K}
    {L : FoilLocals K} (h : rudderLocals m fuel p vel = some L) :
    foldLoop (0.5 * m.M_PI) m.M_PI fuel (foilAlphaStart m p vel) = some L.alpha := by
  simp only [rudderLocals, Option.bind_eq_some] at h
  obtain ⟨sweep, -, alpha, ha, hL⟩ := h
  cases hL
  exact ha

/-- Within the stall angle the rudder lift coefficient is the pre-stall product. -/
theorem rudderCl_of_abs_le {cla alphaStall claStall cosSweepAngle2 alpha : K}
    (h : |alpha| ≤ alphaStall) :
    rudderCl cla alphaStall claStall cosSweepAngle2 alpha = cla * alpha * cosSweepAngle2 := by
  obtain ⟨hlo, hhi⟩ := abs_le.mp h
  rw [rudderCl, if_neg (not_lt.mpr hhi), if_neg (not_lt.mpr hlo), rudderClPreStall]

/-- Within the stall angle the rudder drag coefficient is the absolute value of the pre-stall
product. -/
theorem rudderCd_of_abs_le {cda alphaStall cdaStall cosSweepAngle2 alpha : K}
    (h : |alpha| ≤ alphaStall) :
    rudderCd cda alphaStall cdaStall cosSweepAngle2 alpha = |cda * alpha * cosSweepAngle2| := by
  obtain ⟨hlo, hhi⟩ := abs_le.mp h
  simp only [rudderCd, if_neg (not_lt.mpr hhi), if_neg (not_lt.mpr hlo)]

/-- How a successful rudder body obtained its directions. -/
theorem rudderLocals_geometry {m : Numerics K} {fuel : Nat} {p : Plugin K} {vel : Vector3 K}
    {L : FoilLocals K} (h : rudderLocals m fuel p vel = some L) :
    L.ldNormal = m.Normalize
      ((p.link.RotateVector p.forward).Cross (p.link.RotateVector p.upward)) ∧
    L.velInLDPlane = L.ldNormal.Cross (vel.Cross L.ldNormal) ∧
    L.dragDirection = m.Normalize L.velInLDPlane.neg ∧
    L.liftDirection = m.Normalize (L.ldNormal.Cross L.velInLDPlane) := by
  simp only [rudderLocals, Option.bind_eq_some] at h
  obtain ⟨sweep, -, alpha, -, hL⟩ := h
  cases hL
  exact ⟨rfl, rfl, rfl, rfl⟩

/-- How a successful keel body obtained its directions. -/
theorem keelLocals_geometry {m : Numerics K} {fuel : Nat} {p : Plugin K} {vel : Vector3 K}
    {L : FoilLocals K} (h : keelLocals m fuel p vel = some L) :
    L.ldNormal = m.Normalize
      ((p.link.RotateVector p.forward).Cross (p.link.RotateVector p.upward)) ∧
    L.velInLDPlane = L.ldNormal.Cross (vel.Cross L.ldNormal) ∧
    L.dragDirection = m.Normalize L.velInLDPlane.neg ∧
    L.liftDirection = m.Normalize (L.ldNormal.Cross L.velInLDPlane) := by
  simp only [keelLocals, Option.bind_eq_some] at h
  obtain ⟨sweep, -, alpha, -, hL⟩ := h
  cases hL
  exact ⟨rfl, rfl, rfl, rfl⟩

/-- A sum of multiples of `n x w` and of `-w`, with `w = n x (v x n)`, is orthogonal to `n`, and
a multiple of `n x w` is orthogonal to `w`. -/
theorem lift_drag_orthogonal (n v : Vector3 K) (a b c1 c2 : K) :
    (((((n.Cross (n.Cross (v.Cross n))).scale c2).scale a).add
      (((n.Cross (v.Cross n)).neg.scale c1).scale b)).Dot n = 0) ∧
    (((n.Cross (n.Cross (v.Cross n))).scale c2).scale a).Dot (n.Cross (v.Cross n)) = 0 := by
  constructor <;> simp only [Vector3.Dot, Vector3.Cross, Vector3.scale, Vector3.add, Vector3.neg] <;>
    ring

/-- The dynamic pressure of a successful rudder body. -/
theorem rudderLocals_q {m : Numerics K} {fuel : Nat} {p : Plugin K} {vel : Vector3 K}
    {L : FoilLocals K} (h : rudderLocals m fuel p vel = some L) :
    L.q = 0.5 * p.rho * L.speedInLDPlane * L.speedInLDPlane := by
  simp only [rudderLocals, Option.bind_eq_some] at h
  obtain ⟨sweep, -, alpha, -, hL⟩ := h
  cases hL
  rfl

/-- The dynamic pressure of a successful keel body. -/
theorem keelLocals_q {m : Numerics K} {fuel : Nat} {p : Plugin K} {vel : Vector3 K}
    {L : FoilLocals K} (h : keelLocals m fuel p vel = some L) :
    L.q = 0.5 * p.rho * L.speedInLDPlane * L.speedInLDPlane := by
  simp only [keelLocals, Option.bind_eq_some] at h
  obtain ⟨sweep, -, alpha, -, hL⟩ := h
  cases hL
  rfl

/-- For a non-negative density, `0.5 * rho * s * s` is non-negative. -/
theorem dynamic_pressure_nonneg {rho s : K} (hrho : 0 ≤ rho) : 0 ≤ 0.5 * rho * s * s := by
  have h1 : (0 : K) ≤ 0.5 := by norm_num
  have h2 : 0 ≤ s * s := mul_self_nonneg s
  have e : 0.5 * rho * s * s = 0.5 * rho * (s * s) := by ring
  rw [e]
  exact mul_nonneg (mul_nonneg h1 hrho) h2

/-- The dot product of a vector with itself is non-negative. -/
theorem Vector3.Dot_self_nonneg (w : Vector3 K) : 0 ≤ w.Dot w := by
  have h1 := mul_self_nonneg w.x
  have h2 := mul_self_nonneg w.y
  have h3 := mul_self_nonneg w.z
  simp only [Vector3.Dot]
  linarith

/-- A non-negative multiple of a non-negative multiple of `-w` has non-positive dot product with
`w`. -/
theorem drag_against_velocity (w : Vector3 K) {a c : K} (ha : 0 ≤ a) (hc : 0 ≤ c) :
    ((w.neg.scale c).scale a).Dot w ≤ 0 := by
  have e : ((w.neg.scale c).scale a).Dot w = -(a * c * w.Dot w) := by
    simp only [Vector3.Dot, Vector3.scale, Vector3.neg]
    ring
  rw [e]
  exact neg_nonpos.mpr (mul_nonneg (mul_nonneg ha hc) w.Dot_self_nonneg)

/-- A non-negative multiple of a non-negative multiple of `w` has non-negative dot product with
`w`. -/
theorem drag_along_wind (w : Vector3 K) {a c : K} (ha : 0 ≤ a) (hc : 0 ≤ c) :
    0 ≤ ((w.scale c).scale a).Dot w := by
  have e : ((w.scale c).scale a).Dot w = a * c * w.Dot w := by
    simp only [Vector3.Dot, Vector3.scale]
    ring
  rw [e]
  exact mul_nonneg (mul_nonneg ha hc) w.Dot_self_nonneg

/-- Gazebo's `Normalize` returns the same vector for `v` and for a positive multiple of `v` when
both are longer than its tolerance. -/
theorem gazeboNormalize_scale {m : Numerics K}
    (hsqrt : ∀ k x : K, 0 < k → m.sqrt (k * k * x) = k * m.sqrt x) {k : K} (hk : 0 < k)
    (v : Vector3 K) (h1 : 1e-6 < v.GetLength m) (h2 : 1e-6 < (v.scale k).GetLength m) :
    gazeboNormalize m.sqrt (v.scale k) = gazeboNormalize m.sqrt v := by
  have hlen : (v.scale k).GetLength m = k * v.GetLength m := Vector3.GetLength_scale hsqrt hk v
  have htol : (0 : K) < 1e-6 := by norm_num
  have hz : (0.0 : K) = 0 := by norm_num
  have c1 : ¬ |v.GetLength m - 0.0| ≤ 1e-6 := by
    rw [hz, sub_zero, abs_of_pos (lt_trans htol h1)]
    exact not_le.mpr h1
  have c2 : ¬ |(v.scale k).GetLength m - 0.0| ≤ 1e-6 := by
    rw [hz, sub_zero, abs_of_pos (lt_trans htol h2)]
    exact not_le.mpr h2
  have e1 : gazeboNormalize m.sqrt v =
      ⟨v.x / v.GetLength m, v.y / v.GetLength m, v.z / v.GetLength m⟩ := by
    simp only [Vector3.GetLength] at c1
    simp only [gazeboNormalize, Vector3.GetLength, if_pos c1]
  have e2 : gazeboNormalize m.sqrt (v.scale k) =
      ⟨(v.scale k).x / (v.scale k).GetLength m, (v.scale k).y / (v.scale k).GetLength m,
        (v.scale k).z / (v.scale k).GetLength m⟩ := by
    simp only [Vector3.GetLength] at c2
    simp only [gazeboNormalize, Vector3.GetLength, if_pos c2]
  rw [e1, e2, hlen]
  simp only [Vector3.scale, mul_div_mul_left _ _ hk.ne']

/-- The values that the locals of a successful rudder body hold. -/
theorem rudderLocals_values {m : Numerics K} {fuel : Nat} {p : Plugin K} {vel : Vector3 K}
    {L : FoilLocals K} (h : rudderLocals m fuel p vel = some L) :
    L.ldNormal = ldNormalOf m p ∧
    L.velInLDPlane = velInLDPlaneOf m p vel ∧
    L.sinSweepAngle = (ldNormalOf m p).Dot vel / vel.GetLength m ∧
    L.dragDirection = m.Normalize (velInLDPlaneOf m p vel).neg ∧
    L.liftDirection = m.Normalize ((ldNormalOf m p).Cross (velInLDPlaneOf m p vel)) ∧
    L.speedInLDPlane = (velInLDPlaneOf m p vel).GetLength m := by
  simp only [rudderLocals, Option.bind_eq_some] at h
  obtain ⟨sweep, -, alpha, -, hL⟩ := h
  cases hL
  exact ⟨rfl, rfl, rfl, rfl, rfl, rfl⟩

/-- The in-plane velocity of a multiple of `vel` is that multiple of the in-plane velocity of
`vel`. -/
theorem velInLDPlaneOf_scale (m : Numerics K) (p : Plugin K) (vel : Vector3 K) (k : K) :
    velInLDPlaneOf m p (vel.scale k) = (velInLDPlaneOf m p vel).scale k := by
  simp only [velInLDPlaneOf, Vector3.scale_Cross, Vector3.Cross_scale]

/-- The angle of attack before folding, in terms of `velInLDPlaneOf`. -/
theorem foilAlphaStart_eq (m : Numerics K) (p : Plugin K) (vel : Vector3 K) :
    foilAlphaStart m p vel =
      if (-((p.link.RotateVector p.upward).Dot (velInLDPlaneOf m p vel))) /
          ((p.link.RotateVector p.upward).GetLength m + (velInLDPlaneOf m p vel).GetLength m) > 0
      then p.alpha0 + m.acos (clamp ((p.link.RotateVector p.forward).Dot (velInLDPlaneOf m p vel) /
        ((p.link.RotateVector p.forward).GetLength m * (velInLDPlaneOf m p vel).GetLength m))
        (-1) 1)
      else p.alpha0 - m.acos (clamp ((p.link.RotateVector p.forward).Dot (velInLDPlaneOf m p vel) /
        ((p.link.RotateVector p.forward).GetLength m * (velInLDPlaneOf m p vel).GetLength m))
        (-1) 1) :=
  rfl

/-- When both angles are within the bound before their loops, the rudder body returns for
every fuel, with the angle of attack it had before folding. -/
theorem rudderLocals_of_le {m : Numerics K} {p : Plugin K} {vel : Vector3 K}
    (hs : |m.asin ((ldNormalOf m p).Dot vel / vel.GetLength m)| ≤ 0.5 * m.M_PI)
    (ha : |foilAlphaStart m p vel| ≤ 0.5 * m.M_PI) (fuel : Nat) :
    ∃ L, rudderLocals m fuel p vel = some L ∧ L.alpha = foilAlphaStart m p vel := by
  simp only [ldNormalOf] at hs
  simp only [foilAlphaStart] at ha
  simp only [rudderLocals, foldLoop_of_le hs, foldLoop_of_le ha, Option.some_bind]
  exact ⟨_, rfl, rfl⟩

/-- A value between the two limits is what `clamp` returns. -/
theorem clamp_of_mem {v lo hi : K} (h1 : lo ≤ v) (h2 : v ≤ hi) :
    clamp v lo hi = v := by
  rw [clamp, min_eq_left h2, max_eq_left h1]

/-- The normal of the lift-drag plane of the demo rudder, with gazebo's `Normalize`. -/
theorem demoRudder_ldNormal {m : Numerics K}
    (hN : ∀ v : Vector3 K, m.Normalize v = gazeboNormalize m.sqrt v) (h1 : m.sqrt 1 = 1)
    (a0 : K) : ldNormalOf m (demoRudder a0 1 1) = ⟨0, -1, 0⟩ := by
  rw [ldNormalOf, hN]
  norm_num [demoRudder, demoPlugin, demoLink, gazeboNormalize, Vector3.Cross, h1]

/-- The in-plane velocity of the demo rudder, with gazebo's `Normalize`. -/
theorem demoRudder_velInLDPlane {m : Numerics K}
    (hN : ∀ v : Vector3 K, m.Normalize v = gazeboNormalize m.sqrt v) (h1 : m.sqrt 1 = 1)
    (a0 x y : K) : velInLDPlaneOf m (demoRudder a0 1 1) ⟨x, y, 0⟩ = ⟨x, 0, 0⟩ := by
  rw [velInLDPlaneOf, demoRudder_ldNormal hN h1]
  norm_num [Vector3.Cross]

/-- The angle of attack of the demo rudder before folding, for a velocity whose in-plane part
points ahead. -/
theorem demoRudder_alphaStart {m : Numerics K}
    (hN : ∀ v : Vector3 K, m.Normalize v = gazeboNormalize m.sqrt v) (h1 : m.sqrt 1 = 1)
    (hacos : m.acos 1 = 0) (a0 : K) {x : K} (y : K) (hx : 0 < x) (hsx : m.sqrt (x * x) = x) :
    foilAlphaStart m (demoRudder a0 1 1) ⟨x, y, 0⟩ = a0 := by
  rw [foilAlphaStart_eq, demoRudder_velInLDPlane hN h1]
  have e : (((demoRudder a0 1 1).link.RotateVector (demoRudder a0 1 1).forward).Dot
        (⟨x, 0, 0⟩ : Vector3 K)) /
      ((((demoRudder a0 1 1).link.RotateVector (demoRudder a0 1 1).forward).GetLength m) *
        (⟨x, 0, 0⟩ : Vector3 K).GetLength m) = 1 := by
    simp [demoRudder, demoPlugin, demoLink, Vector3.Dot, Vector3.GetLength, h1, hsx, hx.ne']
  rw [e, clamp_of_mem (by norm_num) le_rfl, hacos]
  simp [demoRudder, demoPlugin, demoLink, Vector3.Dot]

/-- The rudder tick of the demo rudder with zero-lift angle 1 / 4, with gazebo's `Normalize`,
for a velocity `(x, y, 0)` with `x > 0`: it returns for every fuel, and the x component of the
force is the drag. -/
theorem demoRudder_run {m : Numerics K}
    (hN : ∀ v : Vector3 K, m.Normalize v = gazeboNormalize m.sqrt v) (h1 : m.sqrt 1 = 1)
    (hacos : m.acos 1 = 0) (hpi : 1 / 2 ≤ m.M_PI) {x y l : K} (hx : 0 < x)
    (hsx : m.sqrt (x * x) = x) (hlen : m.sqrt (x * x + y * y + 0 * 0) = l)
    (hs : |m.asin (-(y / l))| ≤ 0.5 * m.M_PI) (fuel : Nat) :
    ∃ L, rudderLocals m fuel (demoRudder (1 / 4) 1 1) ⟨x, y, 0⟩ = some L ∧
      L.alpha = 1 / 4 ∧ L.q = 0.5 * 1.2041 * x * x ∧
      L.dragDirection = gazeboNormalize m.sqrt ⟨-x, 0, 0⟩ ∧
      L.liftDirection = gazeboNormalize m.sqrt ⟨0, 0, x⟩ ∧
      L.cl = 1 / 4 * (1 - y / l * (y / l)) ∧
      L.cd = |0.01 * (1 / 4) * (1 - y / l * (y / l))| ∧
      L.force = (L.liftDirection.scale (L.cl * L.q * 1.0)).add
        (L.dragDirection.scale (L.cd * L.q * 1.0)) := by
  have ha : |foilAlphaStart m (demoRudder (1 / 4) 1 1) ⟨x, y, 0⟩| ≤ 0.5 * m.M_PI := by
    rw [demoRudder_alphaStart hN h1 hacos _ y hx hsx, abs_of_pos (by norm_num)]
    norm_num
    linarith
  have hsin : (ldNormalOf m (demoRudder (1 / 4) 1 1)).Dot ⟨x, y, 0⟩ /
      (⟨x, y, 0⟩ : Vector3 K).GetLength m = -(y / l) := by
    rw [demoRudder_ldNormal hN h1]
    simp only [Vector3.Dot, Vector3.GetLength, hlen]
    ring
  rw [← hsin] at hs
  obtain ⟨L, hL, hα⟩ := rudderLocals_of_le hs ha fuel
  obtain ⟨-, -, hsn, hdd, hld, hsp⟩ := rudderLocals_values hL
  obtain ⟨-, -, hc2, hcl, hcd, hlift, hdrag, -, -, hforce, -⟩ := rudderLocals_eq_some hL
  have hq := rudderLocals_q hL
  rw [demoRudder_alphaStart hN h1 hacos _ y hx hsx] at hα
  rw [demoRudder_velInLDPlane hN h1] at hdd hld hsp
  rw [demoRudder_ldNormal hN h1] at hld
  rw [hsin] at hsn
  have hsp2 : L.speedInLDPlane = x := by
    rw [hsp]
    simp only [Vector3.GetLength]
    rw [show x * x + 0 * 0 + 0 * 0 = x * x by ring, hsx]
  have hq2 : L.q = 0.5 * 1.2041 * x * x := by
    rw [hq, hsp2]
    rfl
  have hdd2 : L.dragDirection = gazeboNormalize m.sqrt ⟨-x, 0, 0⟩ := by
    rw [hdd, hN]
    simp [Vector3.neg]
  have hld2 : L.liftDirection = gazeboNormalize m.sqrt ⟨0, 0, x⟩ := by
    rw [hld, hN]
    simp [Vector3.Cross]
  have hstall : |(1 / 4 : K)| ≤ (demoRudder (1 / 4 : K) 1 1).alphaStall := by
    rw [abs_of_pos (by norm_num)]
    norm_num [demoRudder]
  have hcl2 : L.cl = 1 / 4 * (1 - y / l * (y / l)) := by
    rw [hcl, hα, hc2, hsn, rudderCl_of_abs_le hstall]
    norm_num [demoRudder, demoPlugin]
  have hcd2 : L.cd = |0.01 * (1 / 4) * (1 - y / l * (y / l))| := by
    rw [hcd, hα, hc2, hsn, rudderCd_of_abs_le hstall]
    norm_num [demoRudder, demoPlugin]
  refine ⟨L, hL, hα, hq2, hdd2, hld2, hcl2, hcd2, ?_⟩
  rw [hforce, hlift, hdrag]
  rfl
/-- Gazebo's `Normalize` returns a non-negative multiple of its argument. -/
theorem gazeboNormalize_eq_scale {sqrt : K → K} (hsqrt0 : ∀ x : K, 0 ≤ sqrt x) (v : Vector3 K) :
    ∃ c : K, 0 ≤ c ∧ gazeboNormalize sqrt v = v.scale c := by
  by_cases h : ¬ |sqrt (v.x * v.x + v.y * v.y + v.z * v.z) - 0.0| ≤ 1e-6
  · refine ⟨1 / sqrt (v.x * v.x + v.y * v.y + v.z * v.z), one_div_nonneg.mpr (hsqrt0 _), ?_⟩
    simp only [gazeboNormalize, if_pos h, Vector3.scale]
    ext <;> simp only [] <;> ring
  · refine ⟨1, zero_le_one, ?_⟩
    simp only [gazeboNormalize, if_neg h, Vector3.scale, one_mul]

end Lemmas

/-! ## The claims -/

section Claims

variable {K : Type} [LinearOrderedField K]

/-- C2: in the sail tick `cl = 1.5 * sin (2 * alpha)` and `cd = 0.5 * (1 - cos (2 * alpha))`, each
scaling its force without any `cosSweepAngle2` factor, and the dynamic pressure is
`0.5 * rho * |aw|^2`; so two apparent winds of equal length that give the same `alpha` give the
same `cl`, `cd` and `q`, whatever their components along the lift-drag-plane normal. -/
theorem sail_cl_cd_no_sweep (m : Numerics K) (p : Plugin K) (aw1 aw2 : Vector3 K)
    (hlen : aw1.GetLength m = aw2.GetLength m)
    (hα : (sailLocals m p aw1).alpha = (sailLocals m p aw2).alpha) :
    ((sailLocals m p aw1).cl = 1.5 * m.sin (2 * (sailLocals m p aw1).alpha) ∧
      (sailLocals m p aw1).lift =
        (sailLocals m p aw1).liftDirection.scale
          ((sailLocals m p aw1).cl * (sailLocals m p aw1).q * p.area)) ∧
    ((sailLocals m p aw1).cd = 0.5 * (1 - m.cos (2 * (sailLocals m p aw1).alpha)) ∧
      (sailLocals m p aw1).drag =
        (sailLocals m p aw1).dragDirection.scale
          ((sailLocals m p aw1).cd * (sailLocals m p aw1).q * p.area)) ∧
    (sailLocals m p aw1).q = 0.5 * p.rho * aw1.GetLength m * aw1.GetLength m ∧
    (sailLocals m p aw2).cl = (sailLocals m p aw1).cl ∧
    (sailLocals m p aw2).cd = (sailLocals m p aw1).cd ∧
    (sailLocals m p aw2).q = (sailLocals m p aw1).q := by
  have hcl : ∀ aw, (sailLocals m p aw).cl = 1.5 * m.sin (2 * (sailLocals m p aw).alpha) :=
    fun _ => rfl
  have hcd : ∀ aw, (sailLocals m p aw).cd = 0.5 * (1 - m.cos (2 * (sailLocals m p aw).alpha)) :=
    fun _ => rfl
  have hq : ∀ aw, (sailLocals m p aw).q = 0.5 * p.rho * aw.GetLength m * aw.GetLength m :=
    fun _ => rfl
  refine ⟨⟨hcl aw1, rfl⟩, ⟨hcd aw1, rfl⟩, hq aw1, ?_, ?_, ?_⟩
  · rw [hcl aw2, hcl aw1, hα]
  · rw [hcd aw2, hcd aw1, hα]
  · rw [hq aw2, hq aw1, hlen]

/-- Witness for C2: the apparent winds (3, 4, 0) and (3, 0, 4) on the demo
sail have the same length and the same `alpha`, and different components along `ldNormal`. -/
theorem sail_cl_cd_no_sweep_witness :
    (⟨3, 4, 0⟩ : Vector3 ℚ).GetLength ratNumerics = (⟨3, 0, 4⟩ : Vector3 ℚ).GetLength ratNumerics ∧
    (sailLocals ratNumerics (demoPlugin ⟨0, 0, 0⟩) ⟨3, 4, 0⟩).alpha =
      (sailLocals ratNumerics (demoPlugin ⟨0, 0, 0⟩) ⟨3, 0, 4⟩).alpha ∧
    (sailLocals ratNumerics (demoPlugin ⟨0, 0, 0⟩) ⟨3, 4, 0⟩).ldNormal.Dot ⟨3, 4, 0⟩ ≠
      (sailLocals ratNumerics (demoPlugin ⟨0, 0, 0⟩) ⟨3, 0, 4⟩).ldNormal.Dot ⟨3, 0, 4⟩ ∧
    (sailLocals ratNumerics (demoPlugin ⟨0, 0, 0⟩) ⟨3, 0, 4⟩).cl =
      (sailLocals ratNumerics (demoPlugin ⟨0, 0, 0⟩) ⟨3, 4, 0⟩).cl ∧
    (sailLocals ratNumerics (demoPlugin ⟨0, 0, 0⟩) ⟨3, 0, 4⟩).cd =
      (sailLocals ratNumerics (demoPlugin ⟨0, 0, 0⟩) ⟨3, 4, 0⟩).cd ∧
    (sailLocals ratNumerics (demoPlugin ⟨0, 0, 0⟩) ⟨3, 0, 4⟩).q =
      (sailLocals ratNumerics (demoPlugin ⟨0, 0, 0⟩) ⟨3, 4, 0⟩).q := by
  have h1 : (⟨3, 4, 0⟩ : Vector3 ℚ).GetLength ratNumerics =
      (⟨3, 0, 4⟩ : Vector3 ℚ).GetLength ratNumerics := by
    norm_num [Vector3.GetLength, ratNumerics, Numerics.ofLibm, Rat.sqrt]
  have h2 : (sailLocals ratNumerics (demoPlugin ⟨0, 0, 0⟩) ⟨3, 4, 0⟩).alpha =
      (sailLocals ratNumerics (demoPlugin ⟨0, 0, 0⟩) ⟨3, 0, 4⟩).alpha := by
    norm_num [sailLocals, demoPlugin, demoLink, ratNumerics, Numerics.ofLibm, clamp, Vector3.Cross, Vector3.Dot,
      Vector3.GetLength, Vector3.scale, Vector3.neg, Rat.sqrt]
  refine ⟨h1, h2, ?_, (sail_cl_cd_no_sweep ratNumerics _ _ _ h1 h2).2.2.2⟩
  norm_num [sailLocals, demoPlugin, demoLink, ratNumerics, Numerics.ofLibm, clamp, Vector3.Cross, Vector3.Dot,
    Vector3.GetLength, Vector3.scale, Vector3.neg, Rat.sqrt]

/-- The rudder tick of `demoRudder (1 / 4) 1 1`: `alpha` is 1/4, there is no sweep, and
`cl = 1/4`, `cd = 1/400`. -/
theorem demo_rudder_quarter :
    (rudderLocals ratNumerics 0 (demoRudder (1 / 4) 1 1) ⟨1, 0, 0⟩).map
      (fun L => (L.alpha, L.cosSweepAngle2, L.cl, L.cd)) = some (1 / 4, 1, 1 / 4, 1 / 400) := by
  norm_num [rudderLocals, demoRudder, demoPlugin, demoLink, ratNumerics, Numerics.ofLibm, foldLoop, clamp,
    rudderCl, rudderCd, rudderClStallPos, rudderClStallNeg, rudderClPreStall, stallCm,
    Vector3.Cross, Vector3.Dot, Vector3.GetLength, Vector3.scale, Vector3.neg, Vector3.add,
    Vector3.sub, Rat.sqrt, abs_of_pos]

/-- C4, refuted as stated: with `cla = -1`, `alphaStall = 1` and `cosSweepAngle2 = 1` the
clamped positive stall branch at `alpha = alphaStall` is 0, while the pre-stall value
`cla * alphaStall * cosSweepAngle2` is -1. -/
theorem rudder_cl_stall_boundary_counterexample :
    (0 : ℚ) ≤ 1 ∧ (1 : ℚ) ≤ 1 ∧
    rudderClStallPos (-1 : ℚ) 1 0 1 1 = 0 ∧
    rudderClPreStall (-1 : ℚ) 1 1 = -1 ∧
    rudderClStallPos (-1 : ℚ) 1 0 1 1 ≠ (-1) * 1 * 1 := by
  norm_num [rudderClStallPos, rudderClPreStall]

/-- C4, amended: when `cla * alphaStall` and `cosSweepAngle2` are non-negative, the clamped
positive stall branch at `alpha = alphaStall` equals the pre-stall value
`cla * alphaStall * cosSweepAngle2`, and the clamped negative stall branch at
`alpha = -alphaStall` equals the pre-stall value `-cla * alphaStall * cosSweepAngle2`. -/
theorem rudder_cl_stall_boundary (cla claStall alphaStall cosSweepAngle2 : K)
    (hs : 0 ≤ cla * alphaStall) (hc : 0 ≤ cosSweepAngle2) :
    (rudderClStallPos cla alphaStall claStall cosSweepAngle2 alphaStall =
        cla * alphaStall * cosSweepAngle2 ∧
      rudderClPreStall cla cosSweepAngle2 alphaStall = cla * alphaStall * cosSweepAngle2) ∧
    (rudderClStallNeg cla alphaStall claStall cosSweepAngle2 (-alphaStall) =
        -cla * alphaStall * cosSweepAngle2 ∧
      rudderClPreStall cla cosSweepAngle2 (-alphaStall) = -cla * alphaStall * cosSweepAngle2) := by
  have hp : 0 ≤ cla * alphaStall * cosSweepAngle2 := mul_nonneg hs hc
  refine ⟨⟨?_, rfl⟩, ⟨?_, ?_⟩⟩
  · have e : (cla * alphaStall + claStall * (alphaStall - alphaStall)) * cosSweepAngle2 =
        cla * alphaStall * cosSweepAngle2 := by ring
    rw [rudderClStallPos, e, max_eq_right hp]
  · have e : ((-cla) * alphaStall + claStall * (-alphaStall + alphaStall)) * cosSweepAngle2 =
        -cla * alphaStall * cosSweepAngle2 := by ring
    have hn : -cla * alphaStall * cosSweepAngle2 ≤ 0 := by
      have : -cla * alphaStall * cosSweepAngle2 = -(cla * alphaStall * cosSweepAngle2) := by ring
      rw [this]
      exact neg_nonpos.mpr hp
    rw [rudderClStallNeg, e, min_eq_right hn]
  · rw [rudderClPreStall]
    ring

/-- Witness for C4 as amended: `cla = 1`, `claStall = 2`, `alphaStall = 1`,
`cosSweepAngle2 = 1/2`. -/
theorem rudder_cl_stall_boundary_witness :
    (0 : ℚ) ≤ 1 * 1 ∧ (0 : ℚ) ≤ 1 / 2 ∧
    rudderClStallPos (1 : ℚ) 1 2 (1 / 2) 1 = 1 * 1 * (1 / 2) ∧
    rudderClStallNeg (1 : ℚ) 1 2 (1 / 2) (-1) = -1 * 1 * (1 / 2) :=
  ⟨by norm_num, by norm_num,
    (rudder_cl_stall_boundary (1 : ℚ) 2 1 (1 / 2) (by norm_num) (by norm_num)).1.1,
    (rudder_cl_stall_boundary (1 : ℚ) 2 1 (1 / 2) (by norm_num) (by norm_num)).2.1⟩

/-- C5, refuted as stated: the rudder tick of `demoRudder 0 (-1) (-1)` ends with `alpha = 0`,
which is above `alphaStall = -1` and below `-alphaStall = 1`; the first branch is taken and
`cl = 1`, which is positive. -/
theorem rudder_cl_sign_counterexample :
    ∃ L, rudderLocals ratNumerics 0 (demoRudder 0 (-1) (-1)) ⟨1, 0, 0⟩ = some L ∧
      L.alpha < -(demoRudder 0 (-1) (-1)).alphaStall ∧ L.cl = 1 ∧ ¬ L.cl ≤ 0 := by
  have h : (rudderLocals ratNumerics 0 (demoRudder 0 (-1) (-1)) ⟨1, 0, 0⟩).map
      (fun L => (L.alpha, L.cl)) = some (0, 1) := by
    norm_num [rudderLocals, demoRudder, demoPlugin, demoLink, ratNumerics, Numerics.ofLibm, foldLoop, clamp,
      rudderCl, rudderCd, rudderClStallPos, rudderClStallNeg, rudderClPreStall, stallCm,
      Vector3.Cross, Vector3.Dot, Vector3.GetLength, Vector3.scale, Vector3.neg, Vector3.add,
      Vector3.sub, Rat.sqrt]
  obtain ⟨L, hL, hv⟩ := Option.map_eq_some'.mp h
  simp only [Prod.mk.injEq] at hv
  refine ⟨L, hL, ?_, hv.2, ?_⟩
  · rw [hv.1]
    norm_num [demoRudder]
  · rw [hv.2]
    norm_num

/-- C5, amended: in the rudder tick, if `alpha > alphaStall` then `cl` is the first stall
expression clamped from below at 0, so `cl >= 0`; if `alpha < -alphaStall` and not
`alpha > alphaStall` (which is every `alpha < -alphaStall` when `alphaStall >= 0`) then `cl` is
the second stall expression clamped from above at 0, so `cl <= 0`. -/
theorem rudder_cl_sign_beyond_stall (m : Numerics K) (fuel : Nat) (p : Plugin K)
    (vel : Vector3 K) (L : FoilLocals K) (h : rudderLocals m fuel p vel = some L) :
    (L.alpha > p.alphaStall →
      L.cl = max 0 ((p.cla * p.alphaStall + p.claStall * (L.alpha - p.alphaStall)) *
        L.cosSweepAngle2) ∧ 0 ≤ L.cl) ∧
    (L.alpha < -p.alphaStall → ¬ L.alpha > p.alphaStall →
      L.cl = min 0 ((-p.cla * p.alphaStall + p.claStall * (L.alpha + p.alphaStall)) *
        L.cosSweepAngle2) ∧ L.cl ≤ 0) ∧
    (0 ≤ p.alphaStall → L.alpha < -p.alphaStall →
      L.cl = min 0 ((-p.cla * p.alphaStall + p.claStall * (L.alpha + p.alphaStall)) *
        L.cosSweepAngle2) ∧ L.cl ≤ 0) := by
  obtain ⟨-, -, -, hcl, -⟩ := rudderLocals_eq_some h
  have hneg : L.alpha < -p.alphaStall → ¬ L.alpha > p.alphaStall →
      L.cl = min 0 ((-p.cla * p.alphaStall + p.claStall * (L.alpha + p.alphaStall)) *
        L.cosSweepAngle2) ∧ L.cl ≤ 0 := by
    intro h2 h1
    have e : L.cl = min 0 ((-p.cla * p.alphaStall + p.claStall * (L.alpha + p.alphaStall)) *
        L.cosSweepAngle2) := by
      rw [hcl, rudderCl, if_neg h1, if_pos h2, rudderClStallNeg]
    exact ⟨e, by rw [e]; exact min_le_left _ _⟩
  refine ⟨?_, hneg, ?_⟩
  · intro h1
    have e : L.cl = max 0 ((p.cla * p.alphaStall + p.claStall * (L.alpha - p.alphaStall)) *
        L.cosSweepAngle2) := by
      rw [hcl, rudderCl, if_pos h1, rudderClStallPos]
    exact ⟨e, by rw [e]; exact le_max_left _ _⟩
  · intro h0 h2
    refine hneg h2 (not_lt.mpr ?_)
    linarith

/-- The rudder tick of `demoRudder (1 / 2) (1 / 10) 1` ends above stall with `cl = 1/10`. -/
theorem demo_rudder_stalled_pos :
    (rudderLocals ratNumerics 0 (demoRudder (1 / 2) (1 / 10) 1) ⟨1, 0, 0⟩).map
      (fun L => (L.alpha, L.cl)) = some (1 / 2, 1 / 10) := by
  norm_num [rudderLocals, demoRudder, demoPlugin, demoLink, ratNumerics, Numerics.ofLibm, foldLoop, clamp,
    rudderCl, rudderCd, rudderClStallPos, rudderClStallNeg, rudderClPreStall, stallCm,
    Vector3.Cross, Vector3.Dot, Vector3.GetLength, Vector3.scale, Vector3.neg, Vector3.add,
    Vector3.sub, Rat.sqrt, abs_of_pos]

/-- The rudder tick of `demoRudder (-1 / 2) (1 / 10) 1` ends below stall with `cl = -1/10`. -/
theorem demo_rudder_stalled_neg :
    (rudderLocals ratNumerics 0 (demoRudder (-1 / 2) (1 / 10) 1) ⟨1, 0, 0⟩).map
      (fun L => (L.alpha, L.cl)) = some (-1 / 2, -1 / 10) := by
  norm_num [rudderLocals, demoRudder, demoPlugin, demoLink, ratNumerics, Numerics.ofLibm, foldLoop, clamp,
    rudderCl, rudderCd, rudderClStallPos, rudderClStallNeg, rudderClPreStall, stallCm,
    Vector3.Cross, Vector3.Dot, Vector3.GetLength, Vector3.scale, Vector3.neg, Vector3.add,
    Vector3.sub, Rat.sqrt, abs_of_pos, abs_of_neg]

/-- Witness for C5 as amended: one rudder tick above stall and one tick below, with
`alphaStall = 1/10`. -/
theorem rudder_cl_sign_beyond_stall_witness :
    (∃ L, rudderLocals ratNumerics 0 (demoRudder (1 / 2) (1 / 10) 1) ⟨1, 0, 0⟩ = some L ∧
      L.alpha > (demoRudder (1 / 2) (1 / 10) 1).alphaStall ∧ 0 ≤ L.cl) ∧
    (∃ L, rudderLocals ratNumerics 0 (demoRudder (-1 / 2) (1 / 10) 1) ⟨1, 0, 0⟩ = some L ∧
      L.alpha < -(demoRudder (-1 / 2) (1 / 10) 1).alphaStall ∧
      ¬ L.alpha > (demoRudder (-1 / 2) (1 / 10) 1).alphaStall ∧ L.cl ≤ 0) := by
  constructor
  · obtain ⟨L, hL, hv⟩ := Option.map_eq_some'.mp demo_rudder_stalled_pos
    simp only [Prod.mk.injEq] at hv
    have h1 : L.alpha > (demoRudder (1 / 2) (1 / 10) 1).alphaStall := by
      rw [hv.1]
      norm_num [demoRudder]
    exact ⟨L, hL, h1, ((rudder_cl_sign_beyond_stall ratNumerics 0 _ _ L hL).1 h1).2⟩
  · obtain ⟨L, hL, hv⟩ := Option.map_eq_some'.mp demo_rudder_stalled_neg
    simp only [Prod.mk.injEq] at hv
    have h2 : L.alpha < -(demoRudder (-1 / 2) (1 / 10) 1).alphaStall := by
      rw [hv.1]
      norm_num [demoRudder]
    have h1 : ¬ L.alpha > (demoRudder (-1 / 2) (1 / 10) 1).alphaStall := by
      rw [hv.1]
      norm_num [demoRudder]
    exact ⟨L, hL, h2, h1, ((rudder_cl_sign_beyond_stall ratNumerics 0 _ _ L hL).2.1 h2 h1).2⟩

/-- C6, refuted as stated: the rudder tick of `demoRudder (-1 / 2) 1 1` ends before stall
with `alpha = -1/2` and no sweep; the drag coefficient is 1/200, while
`cda * alpha * cosSweepAngle2` is -1/200. -/
theorem rudder_cd_pre_stall_counterexample :
    ∃ L, rudderLocals ratNumerics 0 (demoRudder (-1 / 2) 1 1) ⟨1, 0, 0⟩ = some L ∧
      -(demoRudder (-1 / 2) 1 1).alphaStall ≤ L.alpha ∧
      L.alpha ≤ (demoRudder (-1 / 2) 1 1).alphaStall ∧
      L.cd = 1 / 200 ∧
      (demoRudder (-1 / 2) 1 1).cda * L.alpha * L.cosSweepAngle2 = -1 / 200 ∧
      L.cd ≠ (demoRudder (-1 / 2) 1 1).cda * L.alpha * L.cosSweepAngle2 := by
  have h : (rudderLocals ratNumerics 0 (demoRudder (-1 / 2) 1 1) ⟨1, 0, 0⟩).map
      (fun L => (L.alpha, L.cosSweepAngle2, L.cd)) = some (-1 / 2, 1, 1 / 200) := by
    norm_num [rudderLocals, demoRudder, demoPlugin, demoLink, ratNumerics, Numerics.ofLibm, foldLoop, clamp,
      rudderCl, rudderCd, rudderClStallPos, rudderClStallNeg, rudderClPreStall, stallCm,
      Vector3.Cross, Vector3.Dot, Vector3.GetLength, Vector3.scale, Vector3.neg, Vector3.add,
      Vector3.sub, Rat.sqrt, abs_of_pos, abs_of_neg]
  obtain ⟨L, hL, hv⟩ := Option.map_eq_some'.mp h
  simp only [Prod.mk.injEq] at hv
  obtain ⟨ha, hc, hd⟩ := hv
  refine ⟨L, hL, ?_, ?_, hd, ?_, ?_⟩ <;> rw [ha] <;> try rw [hc]
  · norm_num [demoRudder]
  · norm_num [demoRudder]
  · norm_num [demoRudder, demoPlugin]
  · rw [hd]
    norm_num [demoRudder, demoPlugin]

/-- C6, amended: in the rudder tick, for `-alphaStall <= alpha <= alphaStall` the drag
coefficient that scales `q * area * dragDirection` is the absolute value
`|cda * alpha * cosSweepAngle2|`; it equals `cda * alpha * cosSweepAngle2` when that product is
non-negative. -/
theorem rudder_cd_pre_stall (m : Numerics K) (fuel : Nat) (p : Plugin K) (vel : Vector3 K)
    (L : FoilLocals K) (h : rudderLocals m fuel p vel = some L)
    (hlo : -p.alphaStall ≤ L.alpha) (hhi : L.alpha ≤ p.alphaStall) :
    L.cd = |p.cda * L.alpha * L.cosSweepAngle2| ∧
    L.drag = L.dragDirection.scale (L.cd * L.q * p.area) ∧
    (0 ≤ p.cda * L.alpha * L.cosSweepAngle2 → L.cd = p.cda * L.alpha * L.cosSweepAngle2) := by
  obtain ⟨-, -, -, -, hcd, -, hdrag, -⟩ := rudderLocals_eq_some h
  have h1 : ¬ L.alpha > p.alphaStall := not_lt.mpr hhi
  have h2 : ¬ L.alpha < -p.alphaStall := not_lt.mpr hlo
  have e : L.cd = |p.cda * L.alpha * L.cosSweepAngle2| := by
    rw [hcd]
    simp only [rudderCd, if_neg h1, if_neg h2]
  exact ⟨e, hdrag, fun h0 => by rw [e, abs_of_nonneg h0]⟩

/-- Witness for C6 as amended: the rudder tick of `demoRudder (1 / 4) 1 1`. -/
theorem rudder_cd_pre_stall_witness :
    ∃ L, rudderLocals ratNumerics 0 (demoRudder (1 / 4) 1 1) ⟨1, 0, 0⟩ = some L ∧
      -(demoRudder (1 / 4) 1 1).alphaStall ≤ L.alpha ∧
      L.alpha ≤ (demoRudder (1 / 4) 1 1).alphaStall ∧
      L.cd = |(demoRudder (1 / 4) 1 1).cda * L.alpha * L.cosSweepAngle2| := by
  obtain ⟨L, hL, hv⟩ := Option.map_eq_some'.mp demo_rudder_quarter
  simp only [Prod.mk.injEq] at hv
  have hlo : -(demoRudder (1 / 4) 1 1).alphaStall ≤ L.alpha := by
    rw [hv.1]
    norm_num [demoRudder]
  have hhi : L.alpha ≤ (demoRudder (1 / 4) 1 1).alphaStall := by
    rw [hv.1]
    norm_num [demoRudder]
  exact ⟨L, hL, hlo, hhi, (rudder_cd_pre_stall ratNumerics 0 _ _ L hL hlo hhi).1⟩

/-- C7: in each of the three ticks the moment coefficient is 0 when the moment is formed, so the
moment and the torque are the zero vector; and a tick never calls `AddTorque`: it leaves the
link as it is or makes exactly one `AddForceAtRelativePosition` call, at `cp`. -/
theorem moment_is_zero (m : Numerics K) (p : Plugin K) :
    (∀ fuel vel L, rudderLocals m fuel p vel = some L →
      L.cm = 0 ∧ L.moment = Vector3.zero ∧ L.torque = Vector3.zero) ∧
    (∀ fuel vel L, keelLocals m fuel p vel = some L →
      L.cm = 0 ∧ L.moment = Vector3.zero ∧ L.torque = Vector3.zero) ∧
    (∀ aw, (sailLocals m p aw).cm = 0 ∧ (sailLocals m p aw).moment = Vector3.zero ∧
      (sailLocals m p aw).torque = Vector3.zero) ∧
    (∀ fuel p2, OnUpdateRudder m fuel p = some p2 →
      p2.link.torques = p.link.torques ∧
      (p2.link = p.link ∨ ∃ force, p2.link = p.link.AddForceAtRelativePosition force p.cp)) ∧
    (∀ fuel p2, OnUpdateKeel m fuel p = some p2 →
      p2.link.torques = p.link.torques ∧
      (p2.link = p.link ∨ ∃ force, p2.link = p.link.AddForceAtRelativePosition force p.cp)) ∧
    ((OnUpdateSail m p).link.torques = p.link.torques ∧
      ((OnUpdateSail m p).link = p.link ∨
        ∃ force, (OnUpdateSail m p).link = p.link.AddForceAtRelativePosition force p.cp)) := by
  refine ⟨?_, ?_, ?_, ?_, ?_, ?_⟩
  · intro fuel vel L h
    obtain ⟨-, -, -, -, -, -, -, hcm, hmom, -, htor⟩ := rudderLocals_eq_some h
    have hz : L.moment = Vector3.zero := by rw [hmom, hcm, scale_zero_mul]
    exact ⟨hcm, hz, by rw [htor, hz]⟩
  · intro fuel vel L h
    obtain ⟨-, -, -, -, -, -, hcm, hmom, -, htor⟩ := keelLocals_eq_some h
    have hz : L.moment = Vector3.zero := by rw [hmom, hcm, scale_zero_mul]
    exact ⟨hcm, hz, by rw [htor, hz]⟩
  · intro aw
    have hz : (sailLocals m p aw).moment = Vector3.zero := by
      show Vector3.scale (0 * _ * _) _ = _
      exact scale_zero_mul _ _ _
    exact ⟨rfl, hz, hz⟩
  · intro fuel p2 h
    unfold OnUpdateRudder at h
    simp only at h
    split_ifs at h with hg
    · cases h
      exact ⟨rfl, Or.inl rfl⟩
    · obtain ⟨L, -, hL⟩ := Option.map_eq_some'.mp h
      subst hL
      exact ⟨rfl, Or.inr ⟨L.force, rfl⟩⟩
  · intro fuel p2 h
    unfold OnUpdateKeel at h
    simp only at h
    split_ifs at h with hg
    · cases h
      exact ⟨rfl, Or.inl rfl⟩
    · obtain ⟨L, -, hL⟩ := Option.map_eq_some'.mp h
      subst hL
      exact ⟨rfl, Or.inr ⟨L.force, rfl⟩⟩
  · unfold OnUpdateSail
    simp only
    split_ifs with hg
    · exact ⟨rfl, Or.inl rfl⟩
    · exact ⟨rfl, Or.inr ⟨_, rfl⟩⟩

/-- C8: the speed guard.  Rudder and keel: when `|GetWorldLinearVel (cp) - waterCurrent|` is at
most 0.01 the tick returns the plugin unchanged, so `AddForceAtRelativePosition` is not called;
when it is above 0.01 the tick (given enough fuel for its loops) returns and has appended exactly
one call, the force `lift + drag` at `cp`.  Sail: the same with `|wind - GetWorldLinearVel (cp)|`.
Hence a force is applied if and only if the speed is above 0.01. -/
theorem speed_guard [Archimedean K] (m : Numerics K) (hpi : 0 < m.M_PI) (p : Plugin K) :
    (((p.link.GetWorldLinearVel p.cp).sub p.waterCurrent).GetLength m ≤ 0.01 →
      ∀ fuel, OnUpdateRudder m fuel p = some p) ∧
    (0.01 < ((p.link.GetWorldLinearVel p.cp).sub p.waterCurrent).GetLength m →
      ∃ N : Nat, ∀ fuel, N ≤ fuel → ∃ p2 L,
        OnUpdateRudder m fuel p = some p2 ∧
        rudderLocals m fuel p ((p.link.GetWorldLinearVel p.cp).sub p.waterCurrent) = some L ∧
        p2.link.forces = p.link.forces ++ [(L.force, p.cp)]) ∧
    (((p.link.GetWorldLinearVel p.cp).sub p.waterCurrent).GetLength m ≤ 0.01 →
      ∀ fuel, OnUpdateKeel m fuel p = some p) ∧
    (0.01 < ((p.link.GetWorldLinearVel p.cp).sub p.waterCurrent).GetLength m →
      ∃ N : Nat, ∀ fuel, N ≤ fuel → ∃ p2 L,
        OnUpdateKeel m fuel p = some p2 ∧
        keelLocals m fuel p ((p.link.GetWorldLinearVel p.cp).sub p.waterCurrent) = some L ∧
        p2.link.forces = p.link.forces ++ [(L.force, p.cp)]) ∧
    ((p.wind.sub (p.link.GetWorldLinearVel p.cp)).GetLength m ≤ 0.01 →
      (OnUpdateSail m p).link.forces = p.link.forces) ∧
    (0.01 < (p.wind.sub (p.link.GetWorldLinearVel p.cp)).GetLength m →
      (OnUpdateSail m p).link.forces = p.link.forces ++
        [((sailLocals m p (p.wind.sub (p.link.GetWorldLinearVel p.cp))).force, p.cp)]) := by
  refine ⟨?_, ?_, ?_, ?_, ?_, ?_⟩
  · intro hg fuel
    simp only [OnUpdateRudder, if_pos hg]
  · intro hg
    obtain ⟨N, hN⟩ := rudderLocals_terminates m hpi p
      ((p.link.GetWorldLinearVel p.cp).sub p.waterCurrent)
    refine ⟨N, fun fuel hfuel => ?_⟩
    obtain ⟨L, hL, -⟩ := hN fuel hfuel
    refine ⟨{ p with
      sweep := L.sweep
      alpha := L.alpha
      link := p.link.AddForceAtRelativePosition L.force p.cp }, L, ?_, hL, ?_⟩
    · simp only [OnUpdateRudder, if_neg (not_le.mpr hg), hL, Option.map_some']
    · rfl
  · intro hg fuel
    simp only [OnUpdateKeel, if_pos hg]
  · intro hg
    obtain ⟨N, hN⟩ := keelLocals_terminates m hpi p
      ((p.link.GetWorldLinearVel p.cp).sub p.waterCurrent)
    refine ⟨N, fun fuel hfuel => ?_⟩
    obtain ⟨L, hL, -⟩ := hN fuel hfuel
    refine ⟨{ p with
      sweep := L.sweep
      alpha := L.alpha
      link := p.link.AddForceAtRelativePosition L.force p.cp }, L, ?_, hL, ?_⟩
    · simp only [OnUpdateKeel, if_neg (not_le.mpr hg), hL, Option.map_some']
    · rfl
  · intro hg
    simp only [OnUpdateSail, if_pos hg]
  · intro hg
    simp only [OnUpdateSail, if_neg (not_le.mpr hg)]
    rfl

/-- Witness for C8: the demo rudder at rest is left unchanged, and the demo rudder
moving at unit speed gets one force. -/
theorem speed_guard_witness :
    0 < ratNumerics.M_PI ∧
    ((((demoPlugin ⟨0, 0, 0⟩).link.GetWorldLinearVel (demoPlugin ⟨0, 0, 0⟩).cp).sub
        (demoPlugin ⟨0, 0, 0⟩).waterCurrent).GetLength ratNumerics ≤ 0.01 ∧
      ∀ fuel, OnUpdateRudder ratNumerics fuel (demoPlugin ⟨0, 0, 0⟩) =
        some (demoPlugin ⟨0, 0, 0⟩)) ∧
    (0.01 < (((demoPlugin ⟨1, 0, 0⟩).link.GetWorldLinearVel (demoPlugin ⟨1, 0, 0⟩).cp).sub
        (demoPlugin ⟨1, 0, 0⟩).waterCurrent).GetLength ratNumerics ∧
      ∃ N : Nat, ∀ fuel, N ≤ fuel → ∃ p2 L,
        OnUpdateRudder ratNumerics fuel (demoPlugin ⟨1, 0, 0⟩) = some p2 ∧
        rudderLocals ratNumerics fuel (demoPlugin ⟨1, 0, 0⟩)
          (((demoPlugin ⟨1, 0, 0⟩).link.GetWorldLinearVel (demoPlugin ⟨1, 0, 0⟩).cp).sub
            (demoPlugin ⟨1, 0, 0⟩).waterCurrent) = some L ∧
        p2.link.forces = (demoPlugin ⟨1, 0, 0⟩).link.forces ++
          [(L.force, (demoPlugin ⟨1, 0, 0⟩).cp)]) := by
  have hpi : 0 < ratNumerics.M_PI := by norm_num [ratNumerics, Numerics.ofLibm]
  have h0 : (((demoPlugin ⟨0, 0, 0⟩).link.GetWorldLinearVel (demoPlugin ⟨0, 0, 0⟩).cp).sub
      (demoPlugin ⟨0, 0, 0⟩).waterCurrent).GetLength ratNumerics ≤ 0.01 := by
    norm_num [demoPlugin, demoLink, ratNumerics, Numerics.ofLibm, Vector3.sub, Vector3.GetLength,
      Rat.sqrt]
  have h1 : 0.01 < (((demoPlugin ⟨1, 0, 0⟩).link.GetWorldLinearVel (demoPlugin ⟨1, 0, 0⟩).cp).sub
      (demoPlugin ⟨1, 0, 0⟩).waterCurrent).GetLength ratNumerics := by
    norm_num [demoPlugin, demoLink, ratNumerics, Numerics.ofLibm, Vector3.sub, Vector3.GetLength,
      Rat.sqrt]
  exact ⟨hpi, ⟨h0, (speed_guard ratNumerics hpi (demoPlugin ⟨0, 0, 0⟩)).1 h0⟩,
    ⟨h1, (speed_guard ratNumerics hpi (demoPlugin ⟨1, 0, 0⟩)).2.1 h1⟩⟩

/-- The rational square root at the squares that the two runs of the counterexample for C9
meet. -/
theorem gazeboRat_sqrt_values :
    Rat.sqrt 1 = 1 ∧ Rat.sqrt (9 / 25000000000000) = 3 / 5000000 ∧
    Rat.sqrt (9 / 6250000000000) = 3 / 2500000 ∧
    Rat.sqrt (625000000000450000000000081 / 2500000000000000000000000000) =
      25000000000009 / 50000000000000 ∧
    Rat.sqrt (625000000000450000000000081 / 625000000000000000000000000) =
      25000000000009 / 25000000000000 := by
  refine ⟨by norm_num [Rat.sqrt], ?_, ?_, ?_, ?_⟩
  · rw [show (9 / 25000000000000 : ℚ) = (3 / 5000000) * (3 / 5000000) by norm_num, Rat.sqrt_eq]
    norm_num [abs_of_pos]
  · rw [show (9 / 6250000000000 : ℚ) = (3 / 2500000) * (3 / 2500000) by norm_num, Rat.sqrt_eq]
    norm_num [abs_of_pos]
  · rw [show (625000000000450000000000081 / 2500000000000000000000000000 : ℚ) =
      (25000000000009 / 50000000000000) * (25000000000009 / 50000000000000) by norm_num,
      Rat.sqrt_eq]
    norm_num [abs_of_pos]
  · rw [show (625000000000450000000000081 / 625000000000000000000000000 : ℚ) =
      (25000000000009 / 25000000000000) * (25000000000009 / 25000000000000) by norm_num,
      Rat.sqrt_eq]
    norm_num [abs_of_pos]

/-- C9, refuted as stated: gazebo's `Normalize` leaves a vector no longer than `1e-6` as it is.
For the demo rudder with zero-lift angle 1 / 4 and the velocity
`v = (3 / 5000000, 24999999999991 / 50000000000000, 0)`, of length
25000000000009 / 50000000000000, both `v` and `2 * v` pass the speed guard and no quotient has
divisor zero.  The in-plane velocity of `v` has length `6e-7` and that of `2 * v` has length
`1.2e-6`, so the tick at `v` keeps the drag direction `(-6e-7, 0, 0)` and the lift direction
`(0, 0, 6e-7)` unnormalised while the tick at `2 * v` has `(-1, 0, 0)` and `(0, 0, 1)`: the
dynamic pressure is multiplied by 4 and `alpha`, `cl` and `cd` are unchanged, yet the directions
change and the force at `2 * v` is not 4 times the force at `v`. -/
theorem force_scales_quadratically_counterexample :
    0.01 < (⟨3 / 5000000, 24999999999991 / 50000000000000, 0⟩ : Vector3 ℚ).GetLength
      gazeboRatNumerics ∧
    0.01 < ((⟨3 / 5000000, 24999999999991 / 50000000000000, 0⟩ : Vector3 ℚ).scale 2).GetLength
      gazeboRatNumerics ∧
    foilQuotientsDefined gazeboRatNumerics (demoRudder (1 / 4) 1 1)
      ⟨3 / 5000000, 24999999999991 / 50000000000000, 0⟩ ∧
    foilQuotientsDefined gazeboRatNumerics (demoRudder (1 / 4) 1 1)
      ((⟨3 / 5000000, 24999999999991 / 50000000000000, 0⟩ : Vector3 ℚ).scale 2) ∧
    ∃ L1 L2 : FoilLocals ℚ,
      rudderLocals gazeboRatNumerics 0 (demoRudder (1 / 4) 1 1)
        ⟨3 / 5000000, 24999999999991 / 50000000000000, 0⟩ = some L1 ∧
      rudderLocals gazeboRatNumerics 0 (demoRudder (1 / 4) 1 1)
        ((⟨3 / 5000000, 24999999999991 / 50000000000000, 0⟩ : Vector3 ℚ).scale 2) = some L2 ∧
      L2.q = 2 * 2 * L1.q ∧ L2.alpha = L1.alpha ∧ L2.cl = L1.cl ∧ L2.cd = L1.cd ∧
      L1.dragDirection = ⟨-(3 / 5000000), 0, 0⟩ ∧ L2.dragDirection = ⟨-1, 0, 0⟩ ∧
      L1.liftDirection = ⟨0, 0, 3 / 5000000⟩ ∧ L2.liftDirection = ⟨0, 0, 1⟩ ∧
      L2.force ≠ L1.force.scale (2 * 2) := by
  obtain ⟨s1, s2, s3, s4, s5⟩ := gazeboRat_sqrt_values
  have hN : ∀ v : Vector3 ℚ, gazeboRatNumerics.Normalize v =
      gazeboNormalize gazeboRatNumerics.sqrt v := fun _ => rfl
  have hs1 : gazeboRatNumerics.sqrt 1 = 1 := s1
  have hacos : gazeboRatNumerics.acos 1 = 0 := by
    norm_num [gazeboRatNumerics, Numerics.ofLibmGazebo]
  have hpi : (1 / 2 : ℚ) ≤ gazeboRatNumerics.M_PI := by
    norm_num [gazeboRatNumerics, Numerics.ofLibmGazebo]
  have hhalf : (0.5 : ℚ) * gazeboRatNumerics.M_PI = 3.14159265358979323846 / 2 := by
    norm_num [gazeboRatNumerics, Numerics.ofLibmGazebo]
  have hasin : ∀ t : ℚ, |t| ≤ 1 → |gazeboRatNumerics.asin (-t)| ≤ 0.5 * gazeboRatNumerics.M_PI := by
    intro t ht
    rw [hhalf]
    show |-t * (3.14159265358979323846 / 2)| ≤ 3.14159265358979323846 / 2
    rw [abs_mul, abs_neg, abs_of_pos (by norm_num : (0 : ℚ) < 3.14159265358979323846 / 2)]
    exact mul_le_of_le_one_left (by norm_num) ht
  have hv2 : (⟨3 / 5000000, 24999999999991 / 50000000000000, 0⟩ : Vector3 ℚ).scale 2 =
      ⟨3 / 2500000, 24999999999991 / 25000000000000, 0⟩ := by
    norm_num [Vector3.scale]
  have hl1 : gazeboRatNumerics.sqrt (3 / 5000000 * (3 / 5000000) +
      24999999999991 / 50000000000000 * (24999999999991 / 50000000000000) + 0 * 0) =
      25000000000009 / 50000000000000 := by
    rw [show (3 / 5000000 * (3 / 5000000) +
      24999999999991 / 50000000000000 * (24999999999991 / 50000000000000) + 0 * 0 : ℚ) =
      625000000000450000000000081 / 2500000000000000000000000000 by norm_num]
    exact s4
  have hl2 : gazeboRatNumerics.sqrt (3 / 2500000 * (3 / 2500000) +
      24999999999991 / 25000000000000 * (24999999999991 / 25000000000000) + 0 * 0) =
      25000000000009 / 25000000000000 := by
    rw [show (3 / 2500000 * (3 / 2500000) +
      24999999999991 / 25000000000000 * (24999999999991 / 25000000000000) + 0 * 0 : ℚ) =
      625000000000450000000000081 / 625000000000000000000000000 by norm_num]
    exact s5
  have hx1 : gazeboRatNumerics.sqrt (3 / 5000000 * (3 / 5000000)) = 3 / 5000000 := by
    rw [show (3 / 5000000 * (3 / 5000000) : ℚ) = 9 / 25000000000000 by norm_num]
    exact s2
  have hx2 : gazeboRatNumerics.sqrt (3 / 2500000 * (3 / 2500000)) = 3 / 2500000 := by
    rw [show (3 / 2500000 * (3 / 2500000) : ℚ) = 9 / 6250000000000 by norm_num]
    exact s3
  obtain ⟨L1, h1, ha1, hq1, hd1, hld1, hcl1, hcd1, hf1⟩ :=
    demoRudder_run hN hs1 hacos hpi (by norm_num) hx1 hl1
      (hasin _ (by norm_num [abs_of_pos])) 0
  obtain ⟨L2, h2, ha2, hq2, hd2, hld2, hcl2, hcd2, hf2⟩ :=
    demoRudder_run hN hs1 hacos hpi (by norm_num) hx2 hl2
      (hasin _ (by norm_num [abs_of_pos])) 0
  have n1 : gazeboNormalize gazeboRatNumerics.sqrt (⟨-(3 / 5000000), 0, 0⟩ : Vector3 ℚ) =
      ⟨-(3 / 5000000), 0, 0⟩ := by
    have e : (-(3 / 5000000) * -(3 / 5000000) + 0 * 0 + 0 * 0 : ℚ) = 9 / 25000000000000 := by
      norm_num
    simp only [gazeboNormalize, e, gazeboRatNumerics, Numerics.ofLibmGazebo, s2]
    norm_num [abs_of_pos]
  have n2 : gazeboNormalize gazeboRatNumerics.sqrt (⟨-(3 / 2500000), 0, 0⟩ : Vector3 ℚ) =
      ⟨-1, 0, 0⟩ := by
    have e : (-(3 / 2500000) * -(3 / 2500000) + 0 * 0 + 0 * 0 : ℚ) = 9 / 6250000000000 := by
      norm_num
    simp only [gazeboNormalize, e, gazeboRatNumerics, Numerics.ofLibmGazebo, s3]
    norm_num [abs_of_pos]
  have n3 : gazeboNormalize gazeboRatNumerics.sqrt (⟨0, 0, 3 / 5000000⟩ : Vector3 ℚ) =
      ⟨0, 0, 3 / 5000000⟩ := by
    have e : (0 * 0 + 0 * 0 + 3 / 5000000 * (3 / 5000000) : ℚ) = 9 / 25000000000000 := by
      norm_num
    simp only [gazeboNormalize, e, gazeboRatNumerics, Numerics.ofLibmGazebo, s2]
    norm_num [abs_of_pos]
  have n4 : gazeboNormalize gazeboRatNumerics.sqrt (⟨0, 0, 3 / 2500000⟩ : Vector3 ℚ) =
      ⟨0, 0, 1⟩ := by
    have e : (0 * 0 + 0 * 0 + 3 / 2500000 * (3 / 2500000) : ℚ) = 9 / 6250000000000 := by
      norm_num
    simp only [gazeboNormalize, e, gazeboRatNumerics, Numerics.ofLibmGazebo, s3]
    norm_num [abs_of_pos]
  rw [n1] at hd1
  rw [n2] at hd2
  rw [n3] at hld1
  rw [n4] at hld2
  have hvel : ∀ x y : ℚ, velInLDPlaneOf gazeboRatNumerics (demoRudder (1 / 4) 1 1) ⟨x, y, 0⟩ =
      ⟨x, 0, 0⟩ := demoRudder_velInLDPlane hN hs1 _
  refine ⟨?_, ?_, ?_, ?_, L1, L2, h1, ?_, ?_, ?_, ?_, ?_, hd1, hd2, hld1, hld2, ?_⟩
  · show (0.01 : ℚ) < gazeboRatNumerics.sqrt _
    rw [hl1]
    norm_num
  · rw [hv2]
    show (0.01 : ℚ) < gazeboRatNumerics.sqrt _
    rw [hl2]
    norm_num
  · rw [foilQuotientsDefined, hvel]
    simp only [Vector3.GetLength, hl1, demoRudder, demoPlugin, demoLink]
    norm_num [gazeboRatNumerics, Numerics.ofLibmGazebo, s1, s2]
  · rw [hv2, foilQuotientsDefined, hvel]
    simp only [Vector3.GetLength, hl2, demoRudder, demoPlugin, demoLink]
    norm_num [gazeboRatNumerics, Numerics.ofLibmGazebo, s1, s3]
  · rw [hv2]
    exact h2
  · rw [hq1, hq2]
    norm_num
  · rw [ha1, ha2]
  · rw [hcl1, hcl2]
    norm_num
  · rw [hcd1, hcd2]
    norm_num
  · intro h
    have hx := congrArg Vector3.x h
    rw [hf1, hf2, hld1, hld2, hd1, hd2, hcd1, hcd2, hq1, hq2] at hx
    simp only [Vector3.scale, Vector3.add] at hx
    norm_num [abs_of_pos] at hx

/-- C9, amended: quadratic scaling with speed, for exact arithmetic (a square root that is
non-negative and satisfies `sqrt (k * k * x) = k * sqrt x`) and gazebo's `Normalize`.  For a
fixed plugin (pose and configuration), every `k > 0` and every velocity `v` at which no quotient
of the tick has divisor zero and for which, at `v` and at `k * v`, both vectors handed to
`Normalize` are longer than `1e-6`: the rudder, keel and sail bodies at `k * v` have `k * k`
times the dynamic pressure, the same `alpha`, sweep, lift and drag directions, `cl` and `cd`,
and `k * k` times the force; for `k = 2` the force is multiplied by 4. -/
theorem force_scales_quadratically (m : Numerics K) (hsqrt0 : ∀ x : K, 0 ≤ m.sqrt x)
    (hsqrt : ∀ k x : K, 0 < k → m.sqrt (k * k * x) = k * m.sqrt x)
    (hN : ∀ v : Vector3 K, m.Normalize v = gazeboNormalize m.sqrt v)
    (fuel : Nat) (p : Plugin K) (v : Vector3 K) (k : K) (hk : 0 < k) :
    (foilQuotientsDefined m p v → foilDirectionsNormalized m p v →
      foilDirectionsNormalized m p (v.scale k) →
      (rudderLocals m fuel p (v.scale k)).map
        (fun L => (L.q, L.alpha, L.sweep, L.liftDirection, L.dragDirection, L.cl, L.cd, L.force)) =
      (rudderLocals m fuel p v).map
        (fun L => (k * k * L.q, L.alpha, L.sweep, L.liftDirection, L.dragDirection, L.cl, L.cd,
          L.force.scale (k * k)))) ∧
    (foilQuotientsDefined m p v → foilDirectionsNormalized m p v →
      foilDirectionsNormalized m p (v.scale k) →
      (keelLocals m fuel p (v.scale k)).map
        (fun L => (L.q, L.alpha, L.sweep, L.liftDirection, L.dragDirection, L.cl, L.cd, L.force)) =
      (keelLocals m fuel p v).map
        (fun L => (k * k * L.q, L.alpha, L.sweep, L.liftDirection, L.dragDirection, L.cl, L.cd,
          L.force.scale (k * k)))) ∧
    (sailQuotientsDefined m p v → sailDirectionsNormalized m p v →
      sailDirectionsNormalized m p (v.scale k) →
      (sailLocals m p (v.scale k)).q = k * k * (sailLocals m p v).q ∧
      (sailLocals m p (v.scale k)).alpha = (sailLocals m p v).alpha ∧
      (sailLocals m p (v.scale k)).liftDirection = (sailLocals m p v).liftDirection ∧
      (sailLocals m p (v.scale k)).dragDirection = (sailLocals m p v).dragDirection ∧
      (sailLocals m p (v.scale k)).cl = (sailLocals m p v).cl ∧
      (sailLocals m p (v.scale k)).cd = (sailLocals m p v).cd ∧
      (sailLocals m p (v.scale k)).force = (sailLocals m p v).force.scale (k * k)) := by
  have hfoil : foilDirectionsNormalized m p v → foilDirectionsNormalized m p (v.scale k) →
      m.Normalize ((velInLDPlaneOf m p v).neg.scale k) = m.Normalize (velInLDPlaneOf m p v).neg ∧
      m.Normalize (((ldNormalOf m p).Cross (velInLDPlaneOf m p v)).scale k) =
        m.Normalize ((ldNormalOf m p).Cross (velInLDPlaneOf m p v)) := by
    intro h1 h2
    simp only [foilDirectionsNormalized, velInLDPlaneOf_scale, Vector3.neg_scale,
      Vector3.Cross_scale] at h1 h2
    exact ⟨by rw [hN, hN]; exact gazeboNormalize_scale hsqrt hk _ h1.1 h2.1,
      by rw [hN, hN]; exact gazeboNormalize_scale hsqrt hk _ h1.2 h2.2⟩
  refine ⟨fun _ h1 h2 => ?_, fun _ h1 h2 => ?_, fun _ h1 h2 => ?_⟩
  · exact rudderLocals_scale m hsqrt0 hsqrt fuel p v k hk (hfoil h1 h2).1 (hfoil h1 h2).2
  · exact keelLocals_scale m hsqrt0 hsqrt fuel p v k hk (hfoil h1 h2).1 (hfoil h1 h2).2
  · simp only [sailDirectionsNormalized, Vector3.neg_scale, Vector3.Cross_scale] at h1 h2
    exact sailLocals_scale m hsqrt0 hsqrt p v k hk
      (by rw [hN, hN]; exact gazeboNormalize_scale hsqrt hk _ h1.1 h2.1)
      (by rw [hN, hN]; exact gazeboNormalize_scale hsqrt hk _ h1.2 h2.2)

/-- Witness for C9 as amended: over the reals, with the real square root and gazebo's
`Normalize`.  The demo rudder with zero-lift angle 1 / 4 at the velocities (1, 0, 0) and
2 * (1, 0, 0): both pass the speed guard, the force at (1, 0, 0) is
(-0.001505125, 0, 0.1505125) and doubling the velocity multiplies it by 4.  The demo sail in the
apparent wind (0, 0, 1): the force is (0, 0, 0.60205) and doubling the wind multiplies it
by 4. -/
theorem force_scales_quadratically_witness :
    (0 : ℝ) < 2 ∧
    0.01 < (⟨1, 0, 0⟩ : Vector3 ℝ).GetLength (Numerics.ofLibmGazebo Real.sqrt Real.sin Real.cos Real.arcsin Real.arccos Real.pi) ∧
    0.01 < ((⟨1, 0, 0⟩ : Vector3 ℝ).scale 2).GetLength (Numerics.ofLibmGazebo Real.sqrt Real.sin Real.cos Real.arcsin Real.arccos Real.pi) ∧
    foilQuotientsDefined (Numerics.ofLibmGazebo Real.sqrt Real.sin Real.cos Real.arcsin Real.arccos Real.pi)
      (demoRudder (1 / 4) 1 1) ⟨1, 0, 0⟩ ∧
    foilDirectionsNormalized (Numerics.ofLibmGazebo Real.sqrt Real.sin Real.cos Real.arcsin Real.arccos Real.pi)
      (demoRudder (1 / 4) 1 1) ⟨1, 0, 0⟩ ∧
    foilDirectionsNormalized (Numerics.ofLibmGazebo Real.sqrt Real.sin Real.cos Real.arcsin Real.arccos Real.pi)
      (demoRudder (1 / 4) 1 1) ((⟨1, 0, 0⟩ : Vector3 ℝ).scale 2) ∧
    (∃ L1 L2 : FoilLocals ℝ,
      rudderLocals (Numerics.ofLibmGazebo Real.sqrt Real.sin Real.cos Real.arcsin Real.arccos Real.pi)
        0 (demoRudder (1 / 4) 1 1) ⟨1, 0, 0⟩ = some L1 ∧
      rudderLocals (Numerics.ofLibmGazebo Real.sqrt Real.sin Real.cos Real.arcsin Real.arccos Real.pi)
        0 (demoRudder (1 / 4) 1 1) ((⟨1, 0, 0⟩ : Vector3 ℝ).scale 2) = some L2 ∧
      L1.force = ⟨-0.001505125, 0, 0.1505125⟩ ∧
      L2.q = 2 * 2 * L1.q ∧ L2.alpha = L1.alpha ∧
      L2.liftDirection = L1.liftDirection ∧ L2.dragDirection = L1.dragDirection ∧
      L2.force = L1.force.scale (2 * 2)) ∧
    sailQuotientsDefined (Numerics.ofLibmGazebo Real.sqrt Real.sin Real.cos Real.arcsin Real.arccos Real.pi) (demoSail 1) ⟨0, 0, 1⟩ ∧
    sailDirectionsNormalized (Numerics.ofLibmGazebo Real.sqrt Real.sin Real.cos Real.arcsin Real.arccos Real.pi) (demoSail 1) ⟨0, 0, 1⟩ ∧
    sailDirectionsNormalized (Numerics.ofLibmGazebo Real.sqrt Real.sin Real.cos Real.arcsin Real.arccos Real.pi) (demoSail 1) ((⟨0, 0, 1⟩ : Vector3 ℝ).scale 2) ∧
    (sailLocals (Numerics.ofLibmGazebo Real.sqrt Real.sin Real.cos Real.arcsin Real.arccos Real.pi) (demoSail 1) ⟨0, 0, 1⟩).force = ⟨0, 0, 0.60205⟩ ∧
    (sailLocals (Numerics.ofLibmGazebo Real.sqrt Real.sin Real.cos Real.arcsin Real.arccos Real.pi) (demoSail 1) ((⟨0, 0, 1⟩ : Vector3 ℝ).scale 2)).force =
      (sailLocals (Numerics.ofLibmGazebo Real.sqrt Real.sin Real.cos Real.arcsin Real.arccos Real.pi) (demoSail 1) ⟨0, 0, 1⟩).force.scale (2 * 2) := by
  have hsqrt : ∀ k x : ℝ, 0 < k → Real.sqrt (k * k * x) = k * Real.sqrt x := by
    intro k x hk
    rw [Real.sqrt_mul (mul_self_nonneg k), Real.sqrt_mul_self hk.le]
  have hN : ∀ v : Vector3 ℝ, (Numerics.ofLibmGazebo Real.sqrt Real.sin Real.cos Real.arcsin Real.arccos Real.pi).Normalize v =
      gazeboNormalize (Numerics.ofLibmGazebo Real.sqrt Real.sin Real.cos Real.arcsin Real.arccos Real.pi).sqrt v := fun _ => rfl
  have h1 : (Numerics.ofLibmGazebo Real.sqrt Real.sin Real.cos Real.arcsin Real.arccos Real.pi).sqrt 1 = 1 := Real.sqrt_one
  have hw : ∀ x y : ℝ, velInLDPlaneOf (Numerics.ofLibmGazebo Real.sqrt Real.sin Real.cos Real.arcsin Real.arccos Real.pi) (demoRudder (1 / 4) 1 1) ⟨x, y, 0⟩ = ⟨x, 0, 0⟩ :=
    demoRudder_velInLDPlane hN h1 _
  have hn : ldNormalOf (Numerics.ofLibmGazebo Real.sqrt Real.sin Real.cos Real.arcsin Real.arccos Real.pi) (demoRudder (1 / 4 : ℝ) 1 1) = ⟨0, -1, 0⟩ :=
    demoRudder_ldNormal hN h1 _
  have hv2 : (⟨1, 0, 0⟩ : Vector3 ℝ).scale 2 = ⟨2, 0, 0⟩ := by
    norm_num [Vector3.scale]
  have h4 : Real.sqrt 4 = 2 := by
    rw [show (4 : ℝ) = 2 * 2 by norm_num, Real.sqrt_mul_self (by norm_num)]
  have hq : foilQuotientsDefined (Numerics.ofLibmGazebo Real.sqrt Real.sin Real.cos Real.arcsin Real.arccos Real.pi) (demoRudder (1 / 4) 1 1) ⟨1, 0, 0⟩ := by
    rw [foilQuotientsDefined, hw]
    norm_num [Vector3.GetLength, Numerics.ofLibmGazebo, demoRudder, demoPlugin, demoLink]
  have hd1 : foilDirectionsNormalized (Numerics.ofLibmGazebo Real.sqrt Real.sin Real.cos Real.arcsin Real.arccos Real.pi) (demoRudder (1 / 4) 1 1) ⟨1, 0, 0⟩ := by
    rw [foilDirectionsNormalized, hw, hn]
    norm_num [Vector3.GetLength, Numerics.ofLibmGazebo, Vector3.neg, Vector3.Cross]
  have hd2 : foilDirectionsNormalized (Numerics.ofLibmGazebo Real.sqrt Real.sin Real.cos Real.arcsin Real.arccos Real.pi) (demoRudder (1 / 4) 1 1)
      ((⟨1, 0, 0⟩ : Vector3 ℝ).scale 2) := by
    rw [hv2, foilDirectionsNormalized, hw, hn]
    norm_num [Vector3.GetLength, Numerics.ofLibmGazebo, Vector3.neg, Vector3.Cross, h4]
  have hsq : sailQuotientsDefined (Numerics.ofLibmGazebo Real.sqrt Real.sin Real.cos Real.arcsin Real.arccos Real.pi) (demoSail 1) ⟨0, 0, 1⟩ := by
    norm_num [sailQuotientsDefined, demoSail, demoPlugin, demoLink, Numerics.ofLibmGazebo,
      Vector3.GetLength]
  have hsd1 : sailDirectionsNormalized (Numerics.ofLibmGazebo Real.sqrt Real.sin Real.cos Real.arcsin Real.arccos Real.pi) (demoSail 1) ⟨0, 0, 1⟩ := by
    norm_num [sailDirectionsNormalized, ldNormalOf, demoSail, demoPlugin, demoLink,
      Numerics.ofLibmGazebo, gazeboNormalize, Vector3.GetLength, Vector3.Cross, Vector3.neg]
  have hsd2 : sailDirectionsNormalized (Numerics.ofLibmGazebo Real.sqrt Real.sin Real.cos Real.arcsin Real.arccos Real.pi) (demoSail 1) ((⟨0, 0, 1⟩ : Vector3 ℝ).scale 2) := by
    norm_num [sailDirectionsNormalized, ldNormalOf, demoSail, demoPlugin, demoLink,
      Numerics.ofLibmGazebo, gazeboNormalize, Vector3.GetLength, Vector3.Cross, Vector3.neg,
      Vector3.scale, h4]
  have hsf : (sailLocals (Numerics.ofLibmGazebo Real.sqrt Real.sin Real.cos Real.arcsin Real.arccos Real.pi) (demoSail 1) ⟨0, 0, 1⟩).force = ⟨0, 0, 0.60205⟩ := by
    have e : (2 : ℝ) * -(Real.pi / 2) = -Real.pi := by ring
    have hc : clamp (0 : ℝ) (-1) 1 = 0 := clamp_of_mem (by norm_num) (by norm_num)
    simp only [sailLocals, demoSail, demoPlugin, demoLink, Numerics.ofLibmGazebo,
      gazeboNormalize, Vector3.Cross, Vector3.Dot, Vector3.GetLength, Vector3.neg]
    norm_num [hc, Real.arccos_zero, e, Vector3.scale, Vector3.add]
  have hg1 : 0.01 < (⟨1, 0, 0⟩ : Vector3 ℝ).GetLength (Numerics.ofLibmGazebo Real.sqrt Real.sin Real.cos Real.arcsin Real.arccos Real.pi) := by
    norm_num [Vector3.GetLength, Numerics.ofLibmGazebo]
  have hg2 : 0.01 < ((⟨1, 0, 0⟩ : Vector3 ℝ).scale 2).GetLength (Numerics.ofLibmGazebo Real.sqrt Real.sin Real.cos Real.arcsin Real.arccos Real.pi) := by
    rw [hv2]
    norm_num [Vector3.GetLength, Numerics.ofLibmGazebo, h4]
  have hsail := (force_scales_quadratically (Numerics.ofLibmGazebo Real.sqrt Real.sin Real.cos Real.arcsin Real.arccos Real.pi)
    Real.sqrt_nonneg hsqrt hN 0 (demoSail 1) ⟨0, 0, 1⟩ 2 (by norm_num)).2.2 hsq hsd1 hsd2
  have h := (force_scales_quadratically (Numerics.ofLibmGazebo Real.sqrt Real.sin Real.cos Real.arcsin Real.arccos Real.pi)
    Real.sqrt_nonneg hsqrt hN 0 (demoRudder (1 / 4) 1 1) ⟨1, 0, 0⟩ 2 (by norm_num)).1 hq hd1 hd2
  obtain ⟨L1, hL1, -, hq1, hdd1, hld1, hcl1, hcd1, hf1⟩ :=
    demoRudder_run (m := (Numerics.ofLibmGazebo Real.sqrt Real.sin Real.cos Real.arcsin Real.arccos Real.pi)) (x := 1) (y := 0) (l := 1) hN h1 Real.arccos_one
      (by have := Real.pi_gt_three; show (1 / 2 : ℝ) ≤ Real.pi; linarith) (by norm_num)
      (by show Real.sqrt (1 * 1) = 1; norm_num)
      (by show Real.sqrt (1 * 1 + 0 * 0 + 0 * 0) = 1; norm_num)
      (by show |Real.arcsin (-(0 / 1))| ≤ 0.5 * Real.pi
          have := Real.pi_pos
          norm_num
          linarith) 0
  rw [hL1, Option.map_some'] at h
  obtain ⟨L2, hL2, hL2v⟩ := Option.map_eq_some'.mp h
  simp only [Prod.mk.injEq] at hL2v
  obtain ⟨e1, e2, -, e4, e5, -, -, e8⟩ := hL2v
  refine ⟨by norm_num, hg1, hg2, hq, hd1, hd2, ⟨L1, L2, hL1, hL2, ?_, e1, e2, e4, e5, e8⟩,
    hsq, hsd1, hsd2, hsf, hsail.2.2.2.2.2.2⟩
  have n1 : gazeboNormalize (Numerics.ofLibmGazebo Real.sqrt Real.sin Real.cos Real.arcsin Real.arccos Real.pi).sqrt (⟨-1, 0, 0⟩ : Vector3 ℝ) = ⟨-1, 0, 0⟩ := by
    norm_num [gazeboNormalize, Numerics.ofLibmGazebo]
  have n2 : gazeboNormalize (Numerics.ofLibmGazebo Real.sqrt Real.sin Real.cos Real.arcsin Real.arccos Real.pi).sqrt (⟨0, 0, 1⟩ : Vector3 ℝ) = ⟨0, 0, 1⟩ := by
    norm_num [gazeboNormalize, Numerics.ofLibmGazebo]
  rw [n1] at hdd1
  rw [n2] at hld1
  rw [hf1, hld1, hdd1, hcl1, hcd1, hq1]
  norm_num [Vector3.scale, Vector3.add, abs_of_pos]

/-- C10, where the angles are numbers: the loop
`while (fabs (x) > 0.5 * M_PI) x = x > 0 ? x - M_PI : x + M_PI` finishes from every start value
(given enough iterations) and leaves a value in `[-M_PI / 2, M_PI / 2]`; hence the rudder tick,
for every configuration and every velocity of non-zero length, finishes with `sweep` in that
interval and, when no quotient of the tick has divisor zero, with `alpha` in that interval; the
keel tick finishes with `sweep` in that interval.  Where the divisor of `cosAlpha` is zero the
program's `alpha` is not a number, and nothing is said of it. -/
theorem fold_half_pi_terminates [Archimedean K] (m : Numerics K) (hpi : 0 < m.M_PI) :
    (∀ x : K, ∃ N : Nat, ∀ fuel, N ≤ fuel →
      ∃ y, foldLoop (0.5 * m.M_PI) m.M_PI fuel x = some y ∧
        -(m.M_PI / 2) ≤ y ∧ y ≤ m.M_PI / 2) ∧
    (∀ (p : Plugin K) (vel : Vector3 K), vel.GetLength m ≠ 0 →
      ∃ N : Nat, ∀ fuel, N ≤ fuel →
      ∃ L, rudderLocals m fuel p vel = some L ∧
        (-(m.M_PI / 2) ≤ L.sweep ∧ L.sweep ≤ m.M_PI / 2) ∧
        (foilQuotientsDefined m p vel → -(m.M_PI / 2) ≤ L.alpha ∧ L.alpha ≤ m.M_PI / 2)) ∧
    (∀ (p : Plugin K) (vel : Vector3 K), vel.GetLength m ≠ 0 →
      ∃ N : Nat, ∀ fuel, N ≤ fuel →
      ∃ L, keelLocals m fuel p vel = some L ∧
        (-(m.M_PI / 2) ≤ L.sweep ∧ L.sweep ≤ m.M_PI / 2)) := by
  have hhalf : (0.5 : K) * m.M_PI = m.M_PI / 2 := by
    norm_num
    ring
  refine ⟨?_, ?_, ?_⟩
  · intro x
    obtain ⟨N, hN⟩ := foldLoop_terminates (half_pi_pos hpi) (pi_eq_two_half m) x
    refine ⟨N, fun fuel hfuel => ?_⟩
    obtain ⟨y, hy, hb, -⟩ := hN fuel hfuel
    rw [hhalf] at hb
    exact ⟨y, hy, abs_le.mp hb⟩
  · intro p vel _
    obtain ⟨N, hN⟩ := rudderLocals_terminates m hpi p vel
    refine ⟨N, fun fuel hfuel => ?_⟩
    obtain ⟨L, hL, hs, ha⟩ := hN fuel hfuel
    rw [hhalf] at hs ha
    exact ⟨L, hL, abs_le.mp hs, fun _ => abs_le.mp ha⟩
  · intro p vel _
    obtain ⟨N, hN⟩ := keelLocals_terminates m hpi p vel
    refine ⟨N, fun fuel hfuel => ?_⟩
    obtain ⟨L, hL, hs, -⟩ := hN fuel hfuel
    rw [hhalf] at hs
    exact ⟨L, hL, abs_le.mp hs⟩

/-- Witness for C10: with the rational `M_PI` the loop started at 10 takes
three steps; the velocity (1, 0, 0) of `demoRudder 10 1 1` has non-zero length and no quotient
of its tick has divisor zero, and its rudder tick and keel tick finish. -/
theorem fold_half_pi_terminates_witness :
    0 < ratNumerics.M_PI ∧
    foldLoop (0.5 * ratNumerics.M_PI) ratNumerics.M_PI 3 10 = some (10 - 3 * ratNumerics.M_PI) ∧
    (∃ N : Nat, ∀ fuel, N ≤ fuel →
      ∃ y, foldLoop (0.5 * ratNumerics.M_PI) ratNumerics.M_PI fuel 10 = some y ∧
        -(ratNumerics.M_PI / 2) ≤ y ∧ y ≤ ratNumerics.M_PI / 2) ∧
    foilQuotientsDefined ratNumerics (demoRudder 10 1 1) ⟨1, 0, 0⟩ ∧
    (∃ N : Nat, ∀ fuel, N ≤ fuel →
      ∃ L, rudderLocals ratNumerics fuel (demoRudder 10 1 1) ⟨1, 0, 0⟩ = some L ∧
        (-(ratNumerics.M_PI / 2) ≤ L.alpha ∧ L.alpha ≤ ratNumerics.M_PI / 2) ∧
        (-(ratNumerics.M_PI / 2) ≤ L.sweep ∧ L.sweep ≤ ratNumerics.M_PI / 2)) ∧
    (⟨1, 0, 0⟩ : Vector3 ℚ).GetLength ratNumerics ≠ 0 ∧
    (∃ N : Nat, ∀ fuel, N ≤ fuel →
      ∃ L, keelLocals ratNumerics fuel (demoRudder 10 1 1) ⟨1, 0, 0⟩ = some L ∧
        (-(ratNumerics.M_PI / 2) ≤ L.sweep ∧ L.sweep ≤ ratNumerics.M_PI / 2)) := by
  have hpi : 0 < ratNumerics.M_PI := by norm_num [ratNumerics, Numerics.ofLibm]
  have hq : foilQuotientsDefined ratNumerics (demoRudder 10 1 1) ⟨1, 0, 0⟩ := by
    norm_num [foilQuotientsDefined, velInLDPlaneOf, ldNormalOf, demoRudder, demoPlugin,
      demoLink, ratNumerics, Numerics.ofLibm, Vector3.Cross, Vector3.GetLength, Vector3.scale,
      Rat.sqrt]
  have hlen : (⟨1, 0, 0⟩ : Vector3 ℚ).GetLength ratNumerics ≠ 0 := hq.1
  refine ⟨hpi, ?_, (fold_half_pi_terminates ratNumerics hpi).1 10, hq, ?_, hlen,
    (fold_half_pi_terminates ratNumerics hpi).2.2 (demoRudder 10 1 1) ⟨1, 0, 0⟩ hlen⟩
  · norm_num [foldLoop, ratNumerics, Numerics.ofLibm, abs_of_pos]
  · obtain ⟨N, hN⟩ :=
      (fold_half_pi_terminates ratNumerics hpi).2.1 (demoRudder 10 1 1) ⟨1, 0, 0⟩ hlen
    refine ⟨N, fun fuel hfuel => ?_⟩
    obtain ⟨L, hL, hs, ha⟩ := hN fuel hfuel
    exact ⟨L, hL, ha hq, hs⟩

/-- C12, the code at the scenario's input (`demoPlugin` has the stated `forward`, `upward`,
`alpha0`, `cla`, `area`, `rho` and the identity pose): the relative velocity (0, 1, 0) is along
the normal of the lift-drag plane.  Up to line 231 the rudder tick computes `sinSweepAngle = -1`,
`cosSweepAngle2 = 0`, a sweep of `-(M_PI / 2)` and the zero vector for `velInLDPlane`; the
divisor `forwardI.length * velInLDPlane.length` of `cosAlpha` (line 245) is 0, so the quotients
of the tick are not all defined and the program's angle of attack is the outcome of `0 / 0`.
With the same configuration and the in-plane velocity (0, 0, -1) every quotient is defined and
the angle of attack before folding is `M_PI / 2`.  The numerics are assumed exact at the points
used. -/
theorem scenario_sweep (m : Numerics K) (hpi : 0 < m.M_PI) (h0 : m.sqrt 0 = 0)
    (h1 : m.sqrt 1 = 1) (hasin : m.asin (-1) = -(m.M_PI / 2)) (hacos : m.acos 0 = m.M_PI / 2)
    (hnorm : m.Normalize ⟨0, -1, 0⟩ = ⟨0, -1, 0⟩) (fuel : Nat) :
    (rudderLocals m fuel (demoPlugin ⟨0, 1, 0⟩) ⟨0, 1, 0⟩).map
        (fun L => (L.sinSweepAngle, L.cosSweepAngle2, L.sweep, L.velInLDPlane,
          L.forwardI.GetLength m * L.velInLDPlane.GetLength m)) =
      some (-1, 0, -(m.M_PI / 2), Vector3.zero, 0) ∧
    ¬ foilQuotientsDefined m (demoPlugin ⟨0, 1, 0⟩) ⟨0, 1, 0⟩ ∧
    foilQuotientsDefined m (demoPlugin ⟨0, 0, -1⟩) ⟨0, 0, -1⟩ ∧
    foilAlphaStart m (demoPlugin ⟨0, 0, -1⟩) ⟨0, 0, -1⟩ = m.M_PI / 2 := by
  have hhalf : (0.5 : K) * m.M_PI = m.M_PI / 2 := by
    norm_num
    ring
  have hle : |m.M_PI / 2| ≤ 0.5 * m.M_PI := by
    rw [hhalf, abs_of_pos (by positivity)]
  have hle2 : |-(m.M_PI / 2)| ≤ 0.5 * m.M_PI := by
    rw [abs_neg]
    exact hle
  have hz : (0.0 : K) = 0 := by norm_num
  refine ⟨?_, ?_, ?_, ?_⟩
  · simp [rudderLocals, demoPlugin, demoLink, clamp, Vector3.Cross, Vector3.Dot,
      Vector3.GetLength, Vector3.neg, Vector3.zero, hnorm, h0, h1, hasin, hacos, hz,
      foldLoop_of_le hle, foldLoop_of_le hle2]
  · intro h
    apply h.2.1
    simp [velInLDPlaneOf, ldNormalOf, demoPlugin, demoLink, Vector3.Cross, Vector3.GetLength,
      hnorm, h0]
  · simp [foilQuotientsDefined, velInLDPlaneOf, ldNormalOf, demoPlugin, demoLink,
      Vector3.Cross, Vector3.GetLength, hnorm, h1]
  · simp [foilAlphaStart, demoPlugin, demoLink, clamp, Vector3.Cross, Vector3.Dot,
      Vector3.GetLength, Vector3.neg, hnorm, h0, h1, hasin, hacos, hz]

/-- Witness for C12: the rational numerics are exact at the points used. -/
theorem scenario_sweep_witness :
    0 < ratNumerics.M_PI ∧ ratNumerics.sqrt 0 = 0 ∧ ratNumerics.sqrt 1 = 1 ∧
    ratNumerics.asin (-1) = -(ratNumerics.M_PI / 2) ∧
    ratNumerics.acos 0 = ratNumerics.M_PI / 2 ∧
    ratNumerics.Normalize ⟨0, -1, 0⟩ = ⟨0, -1, 0⟩ ∧
    (rudderLocals ratNumerics 0 (demoPlugin ⟨0, 1, 0⟩) ⟨0, 1, 0⟩).map
        (fun L => (L.sinSweepAngle, L.cosSweepAngle2, L.sweep, L.velInLDPlane,
          L.forwardI.GetLength ratNumerics * L.velInLDPlane.GetLength ratNumerics)) =
      some (-1, 0, -(ratNumerics.M_PI / 2), Vector3.zero, 0) ∧
    ¬ foilQuotientsDefined ratNumerics (demoPlugin ⟨0, 1, 0⟩) ⟨0, 1, 0⟩ ∧
    foilQuotientsDefined ratNumerics (demoPlugin ⟨0, 0, -1⟩) ⟨0, 0, -1⟩ ∧
    foilAlphaStart ratNumerics (demoPlugin ⟨0, 0, -1⟩) ⟨0, 0, -1⟩ = ratNumerics.M_PI / 2 := by
  have hpi : 0 < ratNumerics.M_PI := by norm_num [ratNumerics, Numerics.ofLibm]
  have h0 : ratNumerics.sqrt 0 = 0 := by norm_num [ratNumerics, Numerics.ofLibm, Rat.sqrt]
  have h1 : ratNumerics.sqrt 1 = 1 := by norm_num [ratNumerics, Numerics.ofLibm, Rat.sqrt]
  have hasin : ratNumerics.asin (-1) = -(ratNumerics.M_PI / 2) := by
    norm_num [ratNumerics, Numerics.ofLibm]
  have hacos : ratNumerics.acos 0 = ratNumerics.M_PI / 2 := by
    norm_num [ratNumerics, Numerics.ofLibm]
  have hnorm : ratNumerics.Normalize ⟨0, -1, 0⟩ = ⟨0, -1, 0⟩ := by
    norm_num [ratNumerics, Numerics.ofLibm, Vector3.scale, Rat.sqrt]
  exact ⟨hpi, h0, h1, hasin, hacos, hnorm,
    scenario_sweep ratNumerics hpi h0 h1 hasin hacos hnorm 0⟩

/-- C13, refuted as stated: the tick of `demoSail 1` (a sail at rest in still air, target angle
1, joint stops at 0) is stopped by the speed guard, yet it has set the joint stops to -1 and 1:
the state after the tick is not the state before it. -/
theorem guard_no_side_effect_counterexample :
    ((demoSail (1 : ℚ)).wind.sub
        ((demoSail (1 : ℚ)).link.GetWorldLinearVel (demoSail (1 : ℚ)).cp)).GetLength
      ratNumerics ≤ 0.01 ∧
    (demoSail (1 : ℚ)).joint.lowStop = 0 ∧ (demoSail (1 : ℚ)).joint.highStop = 0 ∧
    (OnUpdateSail ratNumerics (demoSail 1)).joint.lowStop = -1 ∧
    (OnUpdateSail ratNumerics (demoSail 1)).joint.highStop = 1 ∧
    OnUpdateSail ratNumerics (demoSail 1) ≠ demoSail 1 := by
  have hg : ((demoSail (1 : ℚ)).wind.sub
      ((demoSail (1 : ℚ)).link.GetWorldLinearVel (demoSail (1 : ℚ)).cp)).GetLength
      ratNumerics ≤ 0.01 := by
    norm_num [demoSail, demoPlugin, demoLink, ratNumerics, Numerics.ofLibm, Vector3.sub,
      Vector3.GetLength, Rat.sqrt]
  have hlow : (OnUpdateSail ratNumerics (demoSail 1)).joint.lowStop = -1 := by
    simp only [OnUpdateSail, if_pos hg]
    rfl
  have hhigh : (OnUpdateSail ratNumerics (demoSail 1)).joint.highStop = 1 := by
    simp only [OnUpdateSail, if_pos hg]
    rfl
  refine ⟨hg, rfl, rfl, hlow, hhigh, fun h => ?_⟩
  have h2 := congrArg (fun q : Plugin ℚ => q.joint.lowStop) h
  simp only [hlow] at h2
  norm_num [demoSail, demoPlugin] at h2

/-- C13, amended: a rudder or keel tick whose speed is at most 0.01 returns the plugin state
unchanged.  A sail tick whose speed is at most 0.01 has set the joint stops to `-angle` and
`angle` before the guard and changes nothing else: forces and torques applied, stored `alpha`
and `sweep`, `wind` and `waterCurrent` are as before; the whole state is unchanged when the stops
already had these values. -/
theorem guard_no_side_effect (m : Numerics K) (p : Plugin K) :
    (((p.link.GetWorldLinearVel p.cp).sub p.waterCurrent).GetLength m ≤ 0.01 →
      (∀ fuel, OnUpdateRudder m fuel p = some p) ∧ (∀ fuel, OnUpdateKeel m fuel p = some p)) ∧
    ((p.wind.sub (p.link.GetWorldLinearVel p.cp)).GetLength m ≤ 0.01 →
      OnUpdateSail m p = { p with joint := ⟨-p.angle, p.angle⟩ } ∧
      (OnUpdateSail m p).link = p.link ∧
      (OnUpdateSail m p).alpha = p.alpha ∧ (OnUpdateSail m p).sweep = p.sweep ∧
      (OnUpdateSail m p).wind = p.wind ∧ (OnUpdateSail m p).waterCurrent = p.waterCurrent ∧
      (p.joint = ⟨-p.angle, p.angle⟩ → OnUpdateSail m p = p)) := by
  constructor
  · intro hg
    exact ⟨fun fuel => by simp only [OnUpdateRudder, if_pos hg],
      fun fuel => by simp only [OnUpdateKeel, if_pos hg]⟩
  · intro hg
    have e : OnUpdateSail m p = { p with joint := ⟨-p.angle, p.angle⟩ } := by
      simp only [OnUpdateSail, if_pos hg]
      rfl
    refine ⟨e, ?_, ?_, ?_, ?_, ?_, ?_⟩
    · rw [e]
    · rw [e]
    · rw [e]
    · rw [e]
    · rw [e]
    · intro hj
      rw [e, ← hj]

/-- Witness for C13 as amended: the demo rudder at rest, and the sail `demoSail 1`, whose tick
only moves the joint stops. -/
theorem guard_no_side_effect_witness :
    ((((demoPlugin (⟨0, 0, 0⟩ : Vector3 ℚ)).link.GetWorldLinearVel
        (demoPlugin (⟨0, 0, 0⟩ : Vector3 ℚ)).cp).sub
        (demoPlugin (⟨0, 0, 0⟩ : Vector3 ℚ)).waterCurrent).GetLength ratNumerics ≤ 0.01 ∧
      ∀ fuel, OnUpdateRudder ratNumerics fuel (demoPlugin ⟨0, 0, 0⟩) =
        some (demoPlugin ⟨0, 0, 0⟩)) ∧
    (((demoSail (1 : ℚ)).wind.sub
        ((demoSail (1 : ℚ)).link.GetWorldLinearVel (demoSail (1 : ℚ)).cp)).GetLength
        ratNumerics ≤ 0.01 ∧
      OnUpdateSail ratNumerics (demoSail 1) =
        { demoSail 1 with joint := ⟨-(demoSail (1 : ℚ)).angle, (demoSail (1 : ℚ)).angle⟩ }) := by
  have h0 : (((demoPlugin (⟨0, 0, 0⟩ : Vector3 ℚ)).link.GetWorldLinearVel
      (demoPlugin (⟨0, 0, 0⟩ : Vector3 ℚ)).cp).sub
      (demoPlugin (⟨0, 0, 0⟩ : Vector3 ℚ)).waterCurrent).GetLength ratNumerics ≤ 0.01 := by
    norm_num [demoPlugin, demoLink, ratNumerics, Numerics.ofLibm, Vector3.sub,
      Vector3.GetLength, Rat.sqrt]
  have hg : ((demoSail (1 : ℚ)).wind.sub
      ((demoSail (1 : ℚ)).link.GetWorldLinearVel (demoSail (1 : ℚ)).cp)).GetLength
      ratNumerics ≤ 0.01 := by
    norm_num [demoSail, demoPlugin, demoLink, ratNumerics, Numerics.ofLibm, Vector3.sub,
      Vector3.GetLength, Rat.sqrt]
  exact ⟨⟨h0, ((guard_no_side_effect ratNumerics (demoPlugin ⟨0, 0, 0⟩)).1 h0).1⟩,
    ⟨hg, ((guard_no_side_effect ratNumerics (demoSail 1)).2 hg).1⟩⟩

end Claims

section RefreshClaims

variable {K : Type}

/-- C14: a pass of the refresh loop whose service call fails leaves the plugin, and so all three
components of the estimate, unchanged; a pass whose call succeeds sets the `x` and `y` of the
estimate to those of the response.  So after any number of failed passes the estimate is the
initial one, and one successful pass after them gives it the response's `x` and `y`.  This holds
for `WaterThreadLoop` and `waterCurrent` and for `WindThreadLoop` and `wind`. -/
theorem refresh_failure_keeps_estimate (p : Plugin K) (response : GetSpeedResponse K) (n : Nat) :
    (WaterThreadLoopBody p none = p ∧
      (WaterThreadLoopBody p (some response)).waterCurrent.x = response.x ∧
      (WaterThreadLoopBody p (some response)).waterCurrent.y = response.y ∧
      WaterThreadLoop (List.replicate n none) p = p ∧
      (WaterThreadLoop (List.replicate n none ++ [some response]) p).waterCurrent.x =
        response.x ∧
      (WaterThreadLoop (List.replicate n none ++ [some response]) p).waterCurrent.y =
        response.y) ∧
    (WindThreadLoopBody p none = p ∧
      (WindThreadLoopBody p (some response)).wind.x = response.x ∧
      (WindThreadLoopBody p (some response)).wind.y = response.y ∧
      WindThreadLoop (List.replicate n none) p = p ∧
      (WindThreadLoop (List.replicate n none ++ [some response]) p).wind.x = response.x ∧
      (WindThreadLoop (List.replicate n none ++ [some response]) p).wind.y = response.y) := by
  have hw : ∀ k : Nat, WaterThreadLoop (List.replicate k none) p = p := by
    intro k
    induction k with
    | zero => rfl
    | succ k ih =>
      rw [WaterThreadLoop, List.replicate_succ, List.foldl_cons] at *
      exact ih
  have hv : ∀ k : Nat, WindThreadLoop (List.replicate k none) p = p := by
    intro k
    induction k with
    | zero => rfl
    | succ k ih =>
      rw [WindThreadLoop, List.replicate_succ, List.foldl_cons] at *
      exact ih
  have hw2 : WaterThreadLoop (List.replicate n none ++ [some response]) p =
      WaterThreadLoopBody p (some response) := by
    have := hw n
    rw [WaterThreadLoop] at this ⊢
    rw [List.foldl_append, this]
    rfl
  have hv2 : WindThreadLoop (List.replicate n none ++ [some response]) p =
      WindThreadLoopBody p (some response) := by
    have := hv n
    rw [WindThreadLoop] at this ⊢
    rw [List.foldl_append, this]
    rfl
  refine ⟨⟨rfl, rfl, rfl, hw n, ?_, ?_⟩, ⟨rfl, rfl, rfl, hv n, ?_, ?_⟩⟩
  · rw [hw2]
    rfl
  · rw [hw2]
    rfl
  · rw [hv2]
    rfl
  · rw [hv2]
    rfl

end RefreshClaims

section MoreClaims

variable {K : Type} [LinearOrderedField K]

/-- C15, refuted as stated: after `ReadWaterCurrent` has stored (0, 0, 5), a successful pass of
`WaterThreadLoop` with response (1, 2) leaves `waterCurrent` at (1, 2, 5), not (1, 2, 0). -/
theorem refresh_z_counterexample :
    (WaterThreadLoopBody (ReadWaterCurrent (demoPlugin (⟨0, 0, 0⟩ : Vector3 ℚ)) ⟨0, 0, 5⟩)
      (some ⟨1, 2⟩)).waterCurrent = ⟨1, 2, 5⟩ ∧
    (WaterThreadLoopBody (ReadWaterCurrent (demoPlugin (⟨0, 0, 0⟩ : Vector3 ℚ)) ⟨0, 0, 5⟩)
      (some ⟨1, 2⟩)).waterCurrent ≠ ⟨1, 2, 0⟩ := by
  refine ⟨rfl, fun h => ?_⟩
  have h2 := congrArg Vector3.z h
  norm_num [WaterThreadLoopBody, ReadWaterCurrent] at h2

/-- C15, amended: a successful pass of `WaterThreadLoop` stores the response's `x` and `y` and
keeps the `z` that `waterCurrent` had before the pass.  The result is
`(response.x, response.y, 0)` when that `z` was 0, as it is right after `Load`; after
`ReadWaterCurrent` has stored a message it is the message's `z`. -/
theorem refresh_keeps_z (p : Plugin K) (response : GetSpeedResponse K) :
    (WaterThreadLoopBody p (some response)).waterCurrent =
      ⟨response.x, response.y, p.waterCurrent.z⟩ ∧
    (p.waterCurrent.z = 0 →
      (WaterThreadLoopBody p (some response)).waterCurrent = ⟨response.x, response.y, 0⟩) ∧
    (∀ (model : Model K) (sdf : Sdf K) (params : ParamServer K),
      (WaterThreadLoopBody (Load model sdf params p) (some response)).waterCurrent =
        ⟨response.x, response.y, 0⟩) ∧
    (∀ msg : Vector3 K,
      (WaterThreadLoopBody (ReadWaterCurrent p msg) (some response)).waterCurrent =
        ⟨response.x, response.y, msg.z⟩) := by
  refine ⟨rfl, fun hz => ?_, fun _ _ _ => rfl, fun _ => rfl⟩
  rw [← hz]
  rfl

/-- C16: after the constructor and a `Load` (lines 58-97) each parameter is the value of its SDF
element when the element is present and its default otherwise, the defaults being
`alpha0 = 0`, `cla = 1.0`, `cda = 0.01`, `cma = 0.01`, `alphaStall = 0.5 * M_PI`, `claStall = 0`,
`cdaStall = 1.0`, `cmaStall = 0`, `area = 1.0`, `rho = 1.2041`, `cp = (0, 0, 0)`,
`forward = (1, 0, 0)`, `upward = (0, 0, 1)`.  So a description without these elements gives all
the defaults, and one that has a single element overrides that parameter only. -/
theorem load_defaults (m : Numerics K) (model : Model K) (params : ParamServer K)
    (raw : Plugin K) (sdf : Sdf K) :
    ((Load model Sdf.empty params (USV_Sailing_Plugin m raw)).alpha0 = 0 ∧
      (Load model Sdf.empty params (USV_Sailing_Plugin m raw)).cla = 1.0 ∧
      (Load model Sdf.empty params (USV_Sailing_Plugin m raw)).cda = 0.01 ∧
      (Load model Sdf.empty params (USV_Sailing_Plugin m raw)).cma = 0.01 ∧
      (Load model Sdf.empty params (USV_Sailing_Plugin m raw)).alphaStall = m.M_PI / 2 ∧
      (Load model Sdf.empty params (USV_Sailing_Plugin m raw)).claStall = 0 ∧
      (Load model Sdf.empty params (USV_Sailing_Plugin m raw)).cdaStall = 1.0 ∧
      (Load model Sdf.empty params (USV_Sailing_Plugin m raw)).cmaStall = 0 ∧
      (Load model Sdf.empty params (USV_Sailing_Plugin m raw)).area = 1.0 ∧
      (Load model Sdf.empty params (USV_Sailing_Plugin m raw)).rho = 1.2041 ∧
      (Load model Sdf.empty params (USV_Sailing_Plugin m raw)).cp = ⟨0, 0, 0⟩ ∧
      (Load model Sdf.empty params (USV_Sailing_Plugin m raw)).forward = ⟨1, 0, 0⟩ ∧
      (Load model Sdf.empty params (USV_Sailing_Plugin m raw)).upward = ⟨0, 0, 1⟩) ∧
    ((Load model sdf params (USV_Sailing_Plugin m raw)).alpha0 = sdf.a0.getD 0 ∧
      (Load model sdf params (USV_Sailing_Plugin m raw)).cla = sdf.cla.getD 1.0 ∧
      (Load model sdf params (USV_Sailing_Plugin m raw)).cda = sdf.cda.getD 0.01 ∧
      (Load model sdf params (USV_Sailing_Plugin m raw)).cma = sdf.cma.getD 0.01 ∧
      (Load model sdf params (USV_Sailing_Plugin m raw)).alphaStall =
        sdf.alpha_stall.getD (m.M_PI / 2) ∧
      (Load model sdf params (USV_Sailing_Plugin m raw)).claStall = sdf.cla_stall.getD 0 ∧
      (Load model sdf params (USV_Sailing_Plugin m raw)).cdaStall = sdf.cda_stall.getD 1.0 ∧
      (Load model sdf params (USV_Sailing_Plugin m raw)).cmaStall = sdf.cma_stall.getD 0 ∧
      (Load model sdf params (USV_Sailing_Plugin m raw)).area = sdf.area.getD 1.0 ∧
      (Load model sdf params (USV_Sailing_Plugin m raw)).rho = sdf.air_density.getD 1.2041 ∧
      (Load model sdf params (USV_Sailing_Plugin m raw)).cp = sdf.cp.getD ⟨0, 0, 0⟩ ∧
      (Load model sdf params (USV_Sailing_Plugin m raw)).forward =
        sdf.forward.getD ⟨1, 0, 0⟩ ∧
      (Load model sdf params (USV_Sailing_Plugin m raw)).upward =
        sdf.upward.getD ⟨0, 0, 1⟩) := by
  have hhalf : (0.5 : K) * m.M_PI = m.M_PI / 2 := by
    norm_num
    ring
  have hz : (0.0 : K) = 0 := by norm_num
  refine ⟨⟨?_, rfl, rfl, rfl, ?_, ?_, rfl, ?_, rfl, rfl, rfl, rfl, rfl⟩,
    ⟨?_, rfl, rfl, rfl, ?_, ?_, rfl, ?_, rfl, rfl, rfl, rfl, rfl⟩⟩
  · exact hz
  · exact hhalf
  · exact hz
  · exact hz
  · show sdf.a0.getD 0.0 = sdf.a0.getD 0
    rw [hz]
  · show sdf.alpha_stall.getD (0.5 * m.M_PI) = sdf.alpha_stall.getD (m.M_PI / 2)
    rw [hhalf]
  · show sdf.cla_stall.getD 0.0 = sdf.cla_stall.getD 0
    rw [hz]
  · show sdf.cma_stall.getD 0.0 = sdf.cma_stall.getD 0
    rw [hz]

/-- C18, the code at the failing input: with `forward = (1, 0, 0)` and `upward = (0, 0, 1)`
(non-zero, with a non-zero cross product), the identity pose and the relative velocity (0, 1, 0),
the speed is 1 and passes the guard, yet in the rudder tick and in the keel tick
`velInLDPlane` is the zero vector, the divisor `forwardI.length * velInLDPlane.length` of
`cosAlpha` is 0, and both vectors handed to `Normalize` for the drag and lift directions are
zero. -/
theorem in_plane_velocity_can_vanish :
    0.01 < (((demoPlugin (⟨0, 1, 0⟩ : Vector3 ℚ)).link.GetWorldLinearVel
        (demoPlugin (⟨0, 1, 0⟩ : Vector3 ℚ)).cp).sub
        (demoPlugin (⟨0, 1, 0⟩ : Vector3 ℚ)).waterCurrent).GetLength ratNumerics ∧
    (demoPlugin (⟨0, 1, 0⟩ : Vector3 ℚ)).forward.Cross
        (demoPlugin (⟨0, 1, 0⟩ : Vector3 ℚ)).upward = ⟨0, -1, 0⟩ ∧
    (rudderLocals ratNumerics 0 (demoPlugin ⟨0, 1, 0⟩) ⟨0, 1, 0⟩).map
        (fun L => (L.velInLDPlane,
          L.forwardI.GetLength ratNumerics * L.velInLDPlane.GetLength ratNumerics,
          L.velInLDPlane.neg, L.ldNormal.Cross L.velInLDPlane)) =
      some (Vector3.zero, 0, Vector3.zero, Vector3.zero) ∧
    (keelLocals ratNumerics 0 (demoPlugin ⟨0, 1, 0⟩) ⟨0, 1, 0⟩).map
        (fun L => (L.velInLDPlane,
          L.forwardI.GetLength ratNumerics * L.velInLDPlane.GetLength ratNumerics,
          L.velInLDPlane.neg, L.ldNormal.Cross L.velInLDPlane)) =
      some (Vector3.zero, 0, Vector3.zero, Vector3.zero) := by
  refine ⟨?_, ?_, ?_, ?_⟩
  · norm_num [demoPlugin, demoLink, ratNumerics, Numerics.ofLibm, Vector3.sub,
      Vector3.GetLength, Rat.sqrt]
  · norm_num [demoPlugin, Vector3.Cross]
  · norm_num [rudderLocals, demoPlugin, demoLink, ratNumerics, Numerics.ofLibm, foldLoop, clamp,
      rudderCl, rudderCd, rudderClStallPos, rudderClStallNeg, rudderClPreStall, stallCm,
      Vector3.Cross, Vector3.Dot, Vector3.GetLength, Vector3.scale, Vector3.neg, Vector3.add,
      Vector3.sub, Vector3.zero, Rat.sqrt, abs_of_pos]
  · norm_num [keelLocals, demoPlugin, demoLink, ratNumerics, Numerics.ofLibm, foldLoop, clamp,
      stallCm, Vector3.Cross, Vector3.Dot, Vector3.GetLength, Vector3.scale, Vector3.neg,
      Vector3.add, Vector3.sub, Vector3.zero, Rat.sqrt, abs_of_pos]

/-- C20, where the force is made of numbers: in the rudder tick and in the keel tick, for a
`Normalize` that returns a multiple of its argument (as gazebo's does) and a velocity at which
no quotient of the tick has divisor zero, the applied force `lift + drag` has zero dot product
with `ldNormal = Normalize (forwardI x upwardI)`, and the lift has zero dot product with the
in-plane velocity `velInLDPlane`.  Where the divisor of `cosAlpha` is zero the program's force
is not a number, and nothing is said of it. -/
theorem force_in_lift_drag_plane (m : Numerics K)
    (hnorm : ∀ v : Vector3 K, ∃ c : K, m.Normalize v = v.scale c)
    (fuel : Nat) (p : Plugin K) (vel : Vector3 K) (L : FoilLocals K) :
    (foilQuotientsDefined m p vel → rudderLocals m fuel p vel = some L →
      L.ldNormal = m.Normalize
        ((p.link.RotateVector p.forward).Cross (p.link.RotateVector p.upward)) ∧
      L.force.Dot L.ldNormal = 0 ∧ L.lift.Dot L.velInLDPlane = 0) ∧
    (foilQuotientsDefined m p vel → keelLocals m fuel p vel = some L →
      L.ldNormal = m.Normalize
        ((p.link.RotateVector p.forward).Cross (p.link.RotateVector p.upward)) ∧
      L.force.Dot L.ldNormal = 0 ∧ L.lift.Dot L.velInLDPlane = 0) := by
  have key : L.velInLDPlane = L.ldNormal.Cross (vel.Cross L.ldNormal) →
      L.dragDirection = m.Normalize L.velInLDPlane.neg →
      L.liftDirection = m.Normalize (L.ldNormal.Cross L.velInLDPlane) →
      L.lift = L.liftDirection.scale (L.cl * L.q * p.area) →
      L.drag = L.dragDirection.scale (L.cd * L.q * p.area) →
      L.force = L.lift.add L.drag →
      L.force.Dot L.ldNormal = 0 ∧ L.lift.Dot L.velInLDPlane = 0 := by
    intro hv hd hl hlift hdrag hforce
    obtain ⟨c1, hc1⟩ := hnorm L.velInLDPlane.neg
    obtain ⟨c2, hc2⟩ := hnorm (L.ldNormal.Cross L.velInLDPlane)
    rw [hforce, hlift, hdrag, hl, hd, hc1, hc2, hv]
    exact lift_drag_orthogonal L.ldNormal vel _ _ c1 c2
  constructor
  · intro _ h
    obtain ⟨hn, hv, hd, hl⟩ := rudderLocals_geometry h
    obtain ⟨-, -, -, -, -, hlift, hdrag, -, -, hforce, -⟩ := rudderLocals_eq_some h
    exact ⟨hn, key hv hd hl hlift hdrag hforce⟩
  · intro _ h
    obtain ⟨hn, hv, hd, hl⟩ := keelLocals_geometry h
    obtain ⟨-, -, -, -, hlift, hdrag, -, -, hforce, -⟩ := keelLocals_eq_some h
    exact ⟨hn, key hv hd hl hlift hdrag hforce⟩

/-- Witness for C20: gazebo's `Normalize` with the rational square root returns a multiple of
its argument; at the velocity (1, 0, 0) of `demoRudder (1 / 4) 1 1` no quotient has divisor
zero, and the rudder tick gives the force (-0.001505125, 0, 0.1505125), in the lift-drag
plane. -/
theorem force_in_lift_drag_plane_witness :
    (∀ v : Vector3 ℚ, ∃ c : ℚ, gazeboRatNumerics.Normalize v = v.scale c) ∧
    foilQuotientsDefined gazeboRatNumerics (demoRudder (1 / 4) 1 1) ⟨1, 0, 0⟩ ∧
    ∃ L, rudderLocals gazeboRatNumerics 0 (demoRudder (1 / 4) 1 1) ⟨1, 0, 0⟩ = some L ∧
      L.force = ⟨-0.001505125, 0, 0.1505125⟩ ∧
      L.force.Dot L.ldNormal = 0 ∧ L.lift.Dot L.velInLDPlane = 0 := by
  have hN : ∀ v : Vector3 ℚ, gazeboRatNumerics.Normalize v =
      gazeboNormalize gazeboRatNumerics.sqrt v := fun _ => rfl
  have hnorm : ∀ v : Vector3 ℚ, ∃ c : ℚ, gazeboRatNumerics.Normalize v = v.scale c := by
    intro v
    obtain ⟨c, -, hc⟩ := gazeboNormalize_eq_scale Rat.sqrt_nonneg v
    exact ⟨c, hc⟩
  have h1 : gazeboRatNumerics.sqrt 1 = 1 := by
    norm_num [gazeboRatNumerics, Numerics.ofLibmGazebo, Rat.sqrt]
  have hq : foilQuotientsDefined gazeboRatNumerics (demoRudder (1 / 4) 1 1) ⟨1, 0, 0⟩ := by
    rw [foilQuotientsDefined, demoRudder_velInLDPlane hN h1]
    norm_num [Vector3.GetLength, gazeboRatNumerics, Numerics.ofLibmGazebo, demoRudder,
      demoPlugin, demoLink, Rat.sqrt]
  obtain ⟨L, hL, -, hq1, hdd, hld, hcl, hcd, hf⟩ :=
    demoRudder_run (m := gazeboRatNumerics) (x := 1) (y := 0) (l := 1) hN h1
      (by norm_num [gazeboRatNumerics, Numerics.ofLibmGazebo])
      (by norm_num [gazeboRatNumerics, Numerics.ofLibmGazebo]) (by norm_num)
      (by norm_num [gazeboRatNumerics, Numerics.ofLibmGazebo, Rat.sqrt])
      (by norm_num [gazeboRatNumerics, Numerics.ofLibmGazebo, Rat.sqrt])
      (by norm_num [gazeboRatNumerics, Numerics.ofLibmGazebo]) 0
  have n1 : gazeboNormalize gazeboRatNumerics.sqrt (⟨-1, 0, 0⟩ : Vector3 ℚ) = ⟨-1, 0, 0⟩ := by
    norm_num [gazeboNormalize, gazeboRatNumerics, Numerics.ofLibmGazebo, Rat.sqrt]
  have n2 : gazeboNormalize gazeboRatNumerics.sqrt (⟨0, 0, 1⟩ : Vector3 ℚ) = ⟨0, 0, 1⟩ := by
    norm_num [gazeboNormalize, gazeboRatNumerics, Numerics.ofLibmGazebo, Rat.sqrt]
  rw [n1] at hdd
  rw [n2] at hld
  refine ⟨hnorm, hq, L, hL, ?_,
    ((force_in_lift_drag_plane gazeboRatNumerics hnorm 0 (demoRudder (1 / 4) 1 1) ⟨1, 0, 0⟩ L).1
      hq hL).2⟩
  rw [hf, hld, hdd, hcl, hcd, hq1]
  norm_num [Vector3.scale, Vector3.add, abs_of_pos]

/-- C21, where the coefficients are numbers: drag is never propulsive.  The drag coefficient is
non-negative in every variant: the rudder's is an absolute value, and for a cosine with values
in [-1, 1] the keel's `2 * (1 - cos (2 * alpha))` lies in [0, 4] and the sail's
`0.5 * (1 - cos (2 * alpha))` in [0, 1].  Hence, for `rho >= 0`, `area >= 0` and a `Normalize`
that returns a non-negative multiple of its argument (as gazebo's does), the rudder and keel
drag, at a velocity at which no quotient of the tick has divisor zero, has non-positive dot
product with `velInLDPlane`, and the sail drag has non-negative dot product with the apparent
wind.  Where the divisor of `cosAlpha` is zero the program's rudder and keel `cd` and drag are
not numbers, and nothing is said of them. -/
theorem drag_not_propulsive (m : Numerics K) (hcos : ∀ x : K, -1 ≤ m.cos x ∧ m.cos x ≤ 1)
    (hnorm : ∀ v : Vector3 K, ∃ c : K, 0 ≤ c ∧ m.Normalize v = v.scale c)
    (p : Plugin K) (hrho : 0 ≤ p.rho) (harea : 0 ≤ p.area)
    (fuel : Nat) (vel : Vector3 K) :
    (foilQuotientsDefined m p vel → ∀ L : FoilLocals K, rudderLocals m fuel p vel = some L →
      0 ≤ L.cd ∧ L.drag.Dot L.velInLDPlane ≤ 0) ∧
    (foilQuotientsDefined m p vel → ∀ L : FoilLocals K, keelLocals m fuel p vel = some L →
      (0 ≤ L.cd ∧ L.cd ≤ 4) ∧ L.drag.Dot L.velInLDPlane ≤ 0) ∧
    ((0 ≤ (sailLocals m p vel).cd ∧ (sailLocals m p vel).cd ≤ 1) ∧
      0 ≤ (sailLocals m p vel).drag.Dot vel) := by
  have hfoil : ∀ L : FoilLocals K, 0 ≤ L.cd →
      L.q = 0.5 * p.rho * L.speedInLDPlane * L.speedInLDPlane →
      L.dragDirection = m.Normalize L.velInLDPlane.neg →
      L.drag = L.dragDirection.scale (L.cd * L.q * p.area) →
      L.drag.Dot L.velInLDPlane ≤ 0 := by
    intro L hcd hq hd hdrag
    obtain ⟨c, hc, hn⟩ := hnorm L.velInLDPlane.neg
    have hq0 : 0 ≤ L.q := by
      rw [hq]
      exact dynamic_pressure_nonneg hrho
    rw [hdrag, hd, hn]
    exact drag_against_velocity _ (mul_nonneg (mul_nonneg hcd hq0) harea) hc
  refine ⟨?_, ?_, ?_⟩
  · intro _ L h
    obtain ⟨-, -, hd, -⟩ := rudderLocals_geometry h
    obtain ⟨-, -, -, -, hcd, -, hdrag, -⟩ := rudderLocals_eq_some h
    have hcd0 : 0 ≤ L.cd := by
      rw [hcd]
      exact abs_nonneg _
    exact ⟨hcd0, hfoil L hcd0 (rudderLocals_q h) hd hdrag⟩
  · intro _ L h
    obtain ⟨-, -, hd, -⟩ := keelLocals_geometry h
    obtain ⟨-, -, -, hcd, -, hdrag, -⟩ := keelLocals_eq_some h
    obtain ⟨hlo, hhi⟩ := hcos (2 * L.alpha)
    have hcd0 : 0 ≤ L.cd := by
      rw [hcd]
      linarith
    have hcd4 : L.cd ≤ 4 := by
      rw [hcd]
      linarith
    exact ⟨⟨hcd0, hcd4⟩, hfoil L hcd0 (keelLocals_q h) hd hdrag⟩
  · obtain ⟨hlo, hhi⟩ := hcos (2 * (sailLocals m p vel).alpha)
    have hcd : (sailLocals m p vel).cd = 0.5 * (1 - m.cos (2 * (sailLocals m p vel).alpha)) :=
      rfl
    have hcd0 : 0 ≤ (sailLocals m p vel).cd := by
      rw [hcd]
      have : (0 : K) ≤ 0.5 := by norm_num
      exact mul_nonneg this (by linarith)
    have hcd1 : (sailLocals m p vel).cd ≤ 1 := by
      rw [hcd]
      have e : (0.5 : K) * (1 - m.cos (2 * (sailLocals m p vel).alpha)) =
          (1 - m.cos (2 * (sailLocals m p vel).alpha)) / 2 := by
        norm_num
        ring
      rw [e]
      linarith
    refine ⟨⟨hcd0, hcd1⟩, ?_⟩
    obtain ⟨c, hc, hn⟩ := hnorm vel
    have hq0 : 0 ≤ (sailLocals m p vel).q := by
      show 0 ≤ 0.5 * p.rho * vel.GetLength m * vel.GetLength m
      exact dynamic_pressure_nonneg hrho
    have hdrag : (sailLocals m p vel).drag =
        (m.Normalize vel).scale ((sailLocals m p vel).cd * (sailLocals m p vel).q * p.area) :=
      rfl
    rw [hdrag, hn]
    exact drag_along_wind _ (mul_nonneg (mul_nonneg hcd0 hq0) harea) hc

/-- Witness for C21: over the reals, with the real cosine and gazebo's `Normalize`, the demo
plugin (`rho = 1.2041`, `area = 1.0`) moving at (3, 0, 4): no quotient of the tick has divisor
zero, its rudder and keel ticks finish with drag against the in-plane velocity, and its sail
drag is along the apparent wind. -/
theorem drag_not_propulsive_witness :
    (0 : ℝ) ≤ (demoPlugin (⟨3, 0, 4⟩ : Vector3 ℝ)).rho ∧
    (0 : ℝ) ≤ (demoPlugin (⟨3, 0, 4⟩ : Vector3 ℝ)).area ∧
    foilQuotientsDefined (Numerics.ofLibmGazebo Real.sqrt Real.sin Real.cos Real.arcsin Real.arccos Real.pi) (demoPlugin ⟨3, 0, 4⟩) ⟨3, 0, 4⟩ ∧
    (∃ N : Nat, ∀ fuel, N ≤ fuel → ∃ L,
      rudderLocals (Numerics.ofLibmGazebo Real.sqrt Real.sin Real.cos Real.arcsin Real.arccos Real.pi)
        fuel (demoPlugin ⟨3, 0, 4⟩) ⟨3, 0, 4⟩ = some L ∧
      0 ≤ L.cd ∧ L.drag.Dot L.velInLDPlane ≤ 0) ∧
    (∃ N : Nat, ∀ fuel, N ≤ fuel → ∃ L,
      keelLocals (Numerics.ofLibmGazebo Real.sqrt Real.sin Real.cos Real.arcsin Real.arccos Real.pi)
        fuel (demoPlugin ⟨3, 0, 4⟩) ⟨3, 0, 4⟩ = some L ∧
      (0 ≤ L.cd ∧ L.cd ≤ 4) ∧ L.drag.Dot L.velInLDPlane ≤ 0) ∧
    0 ≤ (sailLocals (Numerics.ofLibmGazebo Real.sqrt Real.sin Real.cos Real.arcsin Real.arccos Real.pi)
      (demoPlugin ⟨3, 0, 4⟩) ⟨3, 0, 4⟩).drag.Dot ⟨3, 0, 4⟩ := by
  have hcos : ∀ x : ℝ, -1 ≤ Real.cos x ∧ Real.cos x ≤ 1 :=
    fun x => ⟨Real.neg_one_le_cos x, Real.cos_le_one x⟩
  have hnorm : ∀ v : Vector3 ℝ, ∃ c : ℝ, 0 ≤ c ∧
      (Numerics.ofLibmGazebo Real.sqrt Real.sin Real.cos Real.arcsin Real.arccos Real.pi).Normalize v = v.scale c :=
    fun v => gazeboNormalize_eq_scale Real.sqrt_nonneg v
  have hrho : (0 : ℝ) ≤ (demoPlugin (⟨3, 0, 4⟩ : Vector3 ℝ)).rho := by
    norm_num [demoPlugin]
  have harea : (0 : ℝ) ≤ (demoPlugin (⟨3, 0, 4⟩ : Vector3 ℝ)).area := by
    norm_num [demoPlugin]
  have h25 : Real.sqrt 25 = 5 := by
    rw [show (25 : ℝ) = 5 * 5 by norm_num, Real.sqrt_mul_self (by norm_num)]
  have hq : foilQuotientsDefined (Numerics.ofLibmGazebo Real.sqrt Real.sin Real.cos Real.arcsin Real.arccos Real.pi) (demoPlugin ⟨3, 0, 4⟩) ⟨3, 0, 4⟩ := by
    norm_num [foilQuotientsDefined, velInLDPlaneOf, ldNormalOf, demoPlugin, demoLink,
      Numerics.ofLibmGazebo, gazeboNormalize, Vector3.Cross, Vector3.GetLength, h25]
  refine ⟨hrho, harea, hq, ?_, ?_, ?_⟩
  · obtain ⟨N, hN⟩ := rudderLocals_terminates
      (Numerics.ofLibmGazebo Real.sqrt Real.sin Real.cos Real.arcsin Real.arccos Real.pi)
      Real.pi_pos (demoPlugin ⟨3, 0, 4⟩) ⟨3, 0, 4⟩
    refine ⟨N, fun fuel hfuel => ?_⟩
    obtain ⟨L, hL, -⟩ := hN fuel hfuel
    exact ⟨L, hL, (drag_not_propulsive
      (Numerics.ofLibmGazebo Real.sqrt Real.sin Real.cos Real.arcsin Real.arccos Real.pi)
      hcos hnorm (demoPlugin ⟨3, 0, 4⟩) hrho harea fuel ⟨3, 0, 4⟩).1 hq L hL⟩
  · obtain ⟨N, hN⟩ := keelLocals_terminates
      (Numerics.ofLibmGazebo Real.sqrt Real.sin Real.cos Real.arcsin Real.arccos Real.pi)
      Real.pi_pos (demoPlugin ⟨3, 0, 4⟩) ⟨3, 0, 4⟩
    refine ⟨N, fun fuel hfuel => ?_⟩
    obtain ⟨L, hL, -⟩ := hN fuel hfuel
    exact ⟨L, hL, (drag_not_propulsive
      (Numerics.ofLibmGazebo Real.sqrt Real.sin Real.cos Real.arcsin Real.arccos Real.pi)
      hcos hnorm (demoPlugin ⟨3, 0, 4⟩) hrho harea fuel ⟨3, 0, 4⟩).2.1 hq L hL⟩
  · exact (drag_not_propulsive
      (Numerics.ofLibmGazebo Real.sqrt Real.sin Real.cos Real.arcsin Real.arccos Real.pi)
      hcos hnorm (demoPlugin ⟨3, 0, 4⟩) hrho harea 0 ⟨3, 0, 4⟩).2.2.2

end MoreClaims

end UsvSailing
